import Mathlib

/-!
Verification development for the POS inventory-management ledger engine.

The repository (src/app/models.py) contains the data schema: persistent
entities (Product, Customer, Supplier, Purchase, Sale, their line items,
StockMovement, PayablePayment, ReceivablePayment) and the non-persistent
Create/Update DTOs. Monetary and quantity fields are fixed-point decimals,
embedded here as Rat (exact arithmetic, as Python Decimal is exact for the
additions, subtractions and multiplications this engine performs); datetime
fields are embedded as Int (epoch seconds); Optional fields as Option.

The behavioural core (Stock Ledger, Invoice Reconciler, Balance Aggregator,
Transaction Orchestrator) is specified in the design document but absent from
the repository; those operations are modelled from the spec below, each marked
"Modelled from the spec:". Persisted rows carry the field constraints of the
schema (ge=0, gt=0); the external validation layer that enforces them on input
is modelled as explicit pre-mutation checks failing with validationError.
-/

namespace PosLedger

/-- Embeds models.py TransactionType (lines 9-11). -/
inductive TransactionType where
  | PURCHASE
  | SALE
deriving DecidableEq, Repr

/-- Embeds models.py PaymentStatus (lines 14-18). -/
inductive PaymentStatus where
  | PENDING
  | PARTIAL
  | PAID
  | OVERDUE
deriving DecidableEq, Repr

/-- Embeds models.py PaymentType (lines 21-25). -/
inductive PaymentType where
  | CASH
  | BANK_TRANSFER
  | CREDIT_CARD
  | CHECK
deriving DecidableEq, Repr

/-- Embeds models.py Product (lines 29-48). `id` is the surrogate key,
assigned by the persistence layer at insert (sequential). Constraints from
the schema: purchase_price ≥ 0, selling_price ≥ 0, stock_quantity ≥ 0
(default 0), minimum_stock ≥ 0 (default 0), is_active default true. -/
structure Product where
  id : Int
  code : String
  name : String
  description : String
  unit : String
  purchase_price : Rat
  selling_price : Rat
  stock_quantity : Rat
  minimum_stock : Rat
  is_active : Bool
  created_at : Int
  updated_at : Int
deriving DecidableEq, Repr

/-- Embeds models.py Customer (lines 52-69). current_balance default 0. -/
structure Customer where
  id : Int
  code : String
  name : String
  email : Option String
  phone : Option String
  address : String
  credit_limit : Rat
  current_balance : Rat
  is_active : Bool
  created_at : Int
  updated_at : Int
deriving DecidableEq, Repr

/-- Embeds models.py Supplier (lines 73-89). current_balance default 0. -/
structure Supplier where
  id : Int
  code : String
  name : String
  email : Option String
  phone : Option String
  address : String
  current_balance : Rat
  is_active : Bool
  created_at : Int
  updated_at : Int
deriving DecidableEq, Repr

/-- Embeds models.py Purchase (lines 93-114). subtotal ≥ 0, tax_amount ≥ 0
(default 0), discount_amount ≥ 0 (default 0), total_amount ≥ 0,
paid_amount ≥ 0 (default 0), payment_status default PENDING. -/
structure Purchase where
  id : Int
  invoice_number : String
  supplier_id : Int
  transaction_date : Int
  due_date : Option Int
  subtotal : Rat
  tax_amount : Rat
  discount_amount : Rat
  total_amount : Rat
  paid_amount : Rat
  payment_status : PaymentStatus
  notes : String
  created_at : Int
  updated_at : Int
deriving DecidableEq, Repr

/-- Embeds models.py PurchaseItem (lines 117-130). quantity > 0,
unit_price ≥ 0, discount_amount ≥ 0, total_amount ≥ 0. -/
structure PurchaseItem where
  id : Int
  purchase_id : Int
  product_id : Int
  quantity : Rat
  unit_price : Rat
  discount_amount : Rat
  total_amount : Rat
deriving DecidableEq, Repr

/-- Embeds models.py Sale (lines 134-155). Same constraints as Purchase. -/
structure Sale where
  id : Int
  invoice_number : String
  customer_id : Int
  transaction_date : Int
  due_date : Option Int
  subtotal : Rat
  tax_amount : Rat
  discount_amount : Rat
  total_amount : Rat
  paid_amount : Rat
  payment_status : PaymentStatus
  notes : String
  created_at : Int
  updated_at : Int
deriving DecidableEq, Repr

/-- Embeds models.py SaleItem (lines 158-171). -/
structure SaleItem where
  id : Int
  sale_id : Int
  product_id : Int
  quantity : Rat
  unit_price : Rat
  discount_amount : Rat
  total_amount : Rat
deriving DecidableEq, Repr

/-- Embeds models.py StockMovement (lines 175-192). quantity_in ≥ 0
(default 0), quantity_out ≥ 0 (default 0), balance_after ≥ 0, unit_cost ≥ 0. -/
structure StockMovement where
  id : Int
  product_id : Int
  transaction_type : TransactionType
  reference_id : Int
  reference_number : String
  quantity_in : Rat
  quantity_out : Rat
  balance_after : Rat
  unit_cost : Rat
  notes : String
  movement_date : Int
  created_at : Int
deriving DecidableEq, Repr

/-- Embeds models.py PayablePayment (lines 196-212). payment_amount > 0. -/
structure PayablePayment where
  id : Int
  payment_number : String
  supplier_id : Int
  purchase_id : Option Int
  payment_date : Int
  payment_amount : Rat
  payment_type : PaymentType
  reference_number : String
  notes : String
  created_at : Int
deriving DecidableEq, Repr

/-- Embeds models.py ReceivablePayment (lines 216-232). payment_amount > 0. -/
structure ReceivablePayment where
  id : Int
  payment_number : String
  customer_id : Int
  sale_id : Option Int
  payment_date : Int
  payment_amount : Rat
  payment_type : PaymentType
  reference_number : String
  notes : String
  created_at : Int
deriving DecidableEq, Repr

/-- Embeds models.py ProductCreate (lines 238-245): the product creation DTO
carries no stock_quantity and no is_active field. -/
structure ProductCreate where
  code : String
  name : String
  description : String
  unit : String
  purchase_price : Rat
  selling_price : Rat
  minimum_stock : Rat
deriving DecidableEq, Repr

/-- Embeds models.py ProductUpdate (lines 248-255): every field optional; no
code, no stock_quantity, no created_at field. -/
structure ProductUpdate where
  name : Option String
  description : Option String
  unit : Option String
  purchase_price : Option Rat
  selling_price : Option Rat
  minimum_stock : Option Rat
  is_active : Option Bool
deriving DecidableEq, Repr

/-- Embeds models.py CustomerCreate (lines 258-264). -/
structure CustomerCreate where
  code : String
  name : String
  email : Option String
  phone : Option String
  address : String
  credit_limit : Rat
deriving DecidableEq, Repr

/-- Embeds models.py SupplierCreate (lines 276-281). -/
structure SupplierCreate where
  code : String
  name : String
  email : Option String
  phone : Option String
  address : String
deriving DecidableEq, Repr

/-- Embeds models.py PurchaseItemCreate (lines 292-296): quantity > 0,
unit_price ≥ 0, discount_amount ≥ 0 (default 0); no total_amount field. -/
structure PurchaseItemCreate where
  product_id : Int
  quantity : Rat
  unit_price : Rat
  discount_amount : Rat
deriving DecidableEq, Repr

/-- Embeds models.py PurchaseCreate (lines 299-307): the purchase header DTO;
note it carries tax_amount and discount_amount but no subtotal and no
total_amount field. -/
structure PurchaseCreate where
  invoice_number : String
  supplier_id : Int
  transaction_date : Int
  due_date : Option Int
  tax_amount : Rat
  discount_amount : Rat
  notes : String
  items : List PurchaseItemCreate
deriving DecidableEq, Repr

/-- Embeds models.py SaleItemCreate (lines 310-314). -/
structure SaleItemCreate where
  product_id : Int
  quantity : Rat
  unit_price : Rat
  discount_amount : Rat
deriving DecidableEq, Repr

/-- Embeds models.py SaleCreate (lines 317-325). -/
structure SaleCreate where
  invoice_number : String
  customer_id : Int
  transaction_date : Int
  due_date : Option Int
  tax_amount : Rat
  discount_amount : Rat
  notes : String
  items : List SaleItemCreate
deriving DecidableEq, Repr

/-- Embeds models.py PayablePaymentCreate (lines 328-336): payment_amount > 0. -/
structure PayablePaymentCreate where
  payment_number : String
  supplier_id : Int
  purchase_id : Option Int
  payment_date : Int
  payment_amount : Rat
  payment_type : PaymentType
  reference_number : String
  notes : String
deriving DecidableEq, Repr

/-- Embeds models.py ReceivablePaymentCreate (lines 339-347). -/
structure ReceivablePaymentCreate where
  payment_number : String
  customer_id : Int
  sale_id : Option Int
  payment_date : Int
  payment_amount : Rat
  payment_type : PaymentType
  reference_number : String
  notes : String
deriving DecidableEq, Repr

/-- The persistent store: one append-only list per table, in creation
(insert) order. Surrogate ids are assigned sequentially per table. -/
structure LedgerState where
  products : List Product
  customers : List Customer
  suppliers : List Supplier
  purchases : List Purchase
  purchase_items : List PurchaseItem
  sales : List Sale
  sale_items : List SaleItem
  stock_movements : List StockMovement
  payable_payments : List PayablePayment
  receivable_payments : List ReceivablePayment
deriving DecidableEq, Repr

/-- The empty store. -/
def initState : LedgerState :=
  ⟨[], [], [], [], [], [], [], [], [], []⟩

/-- Error taxonomy of the spec (section 7). -/
inductive LedgerError where
  | validationError
  | insufficientStockError (product_id : Int)
  | overpaymentError
  | invalidTotalsError
  | lineItemMismatchError
  | duplicateKeyError
  | notFoundError
  | invariantViolationError
deriving DecidableEq, Repr

/-- Replaces the first element satisfying the key predicate, as an update
through a unique primary key does. -/
def updateFirst (key : α → Bool) (g : α → α) : List α → List α
  | [] => []
  | x :: rest => if key x then g x :: rest else x :: updateFirst key g rest

/-- Modelled from the spec: Invoice Reconciler status derivation (section
4.2), a pure function of paid_amount, total_amount, due_date and the clock.
The PAID case is checked first because the spec states that PAID is terminal
and OVERDUE never overrides PAID; otherwise an invoice past its due date reads
OVERDUE, an unpaid one PENDING, a partially paid one PARTIAL. -/
def dueBefore (due_date : Option Int) (now : Int) : Bool :=
  match due_date with
  | some d => decide (d < now)
  | none => false

def derive_status (paid total : Rat) (due_date : Option Int) (now : Int) :
    PaymentStatus :=
  if total ≤ paid then PaymentStatus.PAID
  else if dueBefore due_date now then PaymentStatus.OVERDUE
  else if paid = 0 then PaymentStatus.PENDING
  else PaymentStatus.PARTIAL

/-- Modelled from the spec: creating a Product row from a ProductCreate DTO.
The DTO carries no stock_quantity and no is_active value, so the new row takes
the schema defaults of models.py lines 39 and 41: stock_quantity = 0 and
is_active = true. -/
def mkProduct (req : ProductCreate) (pid : Int) (now : Int) : Product :=
  { id := pid, code := req.code, name := req.name,
    description := req.description, unit := req.unit,
    purchase_price := req.purchase_price, selling_price := req.selling_price,
    stock_quantity := 0, minimum_stock := req.minimum_stock,
    is_active := true, created_at := now, updated_at := now }

/-- Modelled from the spec: product creation. Field constraints of the DTO
(ge=0) are checked by the validation layer (section 6), the business key
`code` must be unique (section 6), and the row is appended with the next
sequential surrogate id. -/
def create_product (st : LedgerState) (req : ProductCreate) (now : Int) :
    Except LedgerError LedgerState :=
  if ¬ (0 ≤ req.purchase_price ∧ 0 ≤ req.selling_price ∧ 0 ≤ req.minimum_stock) then
    .error .validationError
  else if st.products.any (fun p => p.code == req.code) then
    .error .duplicateKeyError
  else
    .ok { st with
      products := st.products ++ [mkProduct req ((st.products.length : Int) + 1) now] }

/-- Modelled from the spec: applying a ProductUpdate DTO to a Product row.
Each optional field overwrites the row when present; the DTO exposes no code,
stock_quantity or created_at field, so those are untouched. -/
def apply_product_update (p : Product) (u : ProductUpdate) (now : Int) : Product :=
  { p with
    name := u.name.getD p.name,
    description := u.description.getD p.description,
    unit := u.unit.getD p.unit,
    purchase_price := u.purchase_price.getD p.purchase_price,
    selling_price := u.selling_price.getD p.selling_price,
    minimum_stock := u.minimum_stock.getD p.minimum_stock,
    is_active := u.is_active.getD p.is_active,
    updated_at := now }

/-- Modelled from the spec: product update through the primary key. -/
def update_product (st : LedgerState) (pid : Int) (u : ProductUpdate) (now : Int) :
    Except LedgerError LedgerState :=
  if ¬ (0 ≤ u.purchase_price.getD 0 ∧ 0 ≤ u.selling_price.getD 0 ∧
        0 ≤ u.minimum_stock.getD 0) then
    .error .validationError
  else if ¬ st.products.any (fun p => p.id == pid) then .error .notFoundError
  else
    .ok { st with
      products := updateFirst (fun p => p.id == pid)
        (fun p => apply_product_update p u now) st.products }

/-- Modelled from the spec: customer creation; the new row takes the schema
defaults current_balance = 0 and is_active = true (models.py lines 62-63). -/
def create_customer (st : LedgerState) (req : CustomerCreate) (now : Int) :
    Except LedgerError LedgerState :=
  if ¬ 0 ≤ req.credit_limit then .error .validationError
  else if st.customers.any (fun c => c.code == req.code) then
    .error .duplicateKeyError
  else
    .ok { st with customers := st.customers ++
      [{ id := (st.customers.length : Int) + 1, code := req.code,
         name := req.name, email := req.email, phone := req.phone,
         address := req.address, credit_limit := req.credit_limit,
         current_balance := 0, is_active := true,
         created_at := now, updated_at := now }] }

/-- Modelled from the spec: supplier creation; current_balance starts at the
schema default 0 (models.py line 82). -/
def create_supplier (st : LedgerState) (req : SupplierCreate) (now : Int) :
    Except LedgerError LedgerState :=
  if st.suppliers.any (fun s => s.code == req.code) then
    .error .duplicateKeyError
  else
    .ok { st with suppliers := st.suppliers ++
      [{ id := (st.suppliers.length : Int) + 1, code := req.code,
         name := req.name, email := req.email, phone := req.phone,
         address := req.address, current_balance := 0, is_active := true,
         created_at := now, updated_at := now }] }

/-- Modelled from the spec: Stock Ledger record_movement (section 4.1). Looks
up the product, computes balance_after = current stock + quantity_delta, fails
with insufficientStockError when a sale would drive balance_after below zero
(purchases never fail this check), appends the movement (positive delta as
quantity_in, negative as quantity_out) and caches balance_after in the
product row, all in the same unit of work. `mkMovement` builds the appended
row; `record_movement` is the ledger call itself. -/
def mkMovement (st : LedgerState) (pid : Int) (ttype : TransactionType)
    (refId : Int) (refNum : String) (delta unitCost : Rat) (date : Int)
    (bal : Rat) : StockMovement :=
  { id := (st.stock_movements.length : Int) + 1, product_id := pid,
    transaction_type := ttype, reference_id := refId,
    reference_number := refNum,
    quantity_in := if 0 ≤ delta then delta else 0,
    quantity_out := if 0 ≤ delta then 0 else -delta,
    balance_after := bal, unit_cost := unitCost, notes := "",
    movement_date := date, created_at := date }

def stockCacheUpd (bal : Rat) (date : Int) (q : Product) : Product :=
  { q with stock_quantity := bal, updated_at := date }

def record_movement (st : LedgerState) (pid : Int) (ttype : TransactionType)
    (refId : Int) (refNum : String) (delta unitCost : Rat) (date : Int) :
    Except LedgerError LedgerState :=
  match st.products.find? (fun p => p.id == pid) with
  | none => .error .notFoundError
  | some p =>
    if ttype = TransactionType.SALE ∧ p.stock_quantity + delta < 0 then
      .error (.insufficientStockError pid)
    else
      .ok { st with
        stock_movements := st.stock_movements ++
          [mkMovement st pid ttype refId refNum delta unitCost date
            (p.stock_quantity + delta)],
        products := updateFirst (fun q => q.id == pid)
          (stockCacheUpd (p.stock_quantity + delta) date)
          st.products }

/-- Line-item total for a purchase item: quantity × unit_price −
discount_amount (section 3; the DTO has no stored total_amount field). -/
def purchaseItemTotal (it : PurchaseItemCreate) : Rat :=
  it.quantity * it.unit_price - it.discount_amount

/-- DTO field constraints of PurchaseItemCreate (gt=0 / ge=0) together with
the ge=0 constraint on the persisted PurchaseItem.total_amount. -/
def purchaseItemOk (it : PurchaseItemCreate) : Bool :=
  decide (0 < it.quantity) && decide (0 ≤ it.unit_price) &&
  decide (0 ≤ it.discount_amount) && decide (0 ≤ purchaseItemTotal it)

/-- Builds the persisted PurchaseItem rows with sequential ids. -/
def mkPurchaseItems (puid : Int) (base : Nat) :
    List PurchaseItemCreate → List PurchaseItem
  | [] => []
  | it :: rest =>
    { id := (base : Int) + 1, purchase_id := puid,
      product_id := it.product_id, quantity := it.quantity,
      unit_price := it.unit_price, discount_amount := it.discount_amount,
      total_amount := purchaseItemTotal it } ::
    mkPurchaseItems puid (base + 1) rest

/-- Modelled from the spec: the orchestrator invokes the Stock Ledger once per
purchase line item, with positive quantity_delta (section 4.4 step 4). -/
def purchaseMovements (puid : Int) (inv : String) (now : Int) :
    LedgerState → List PurchaseItemCreate → Except LedgerError LedgerState
  | st, [] => .ok st
  | st, it :: rest =>
    match record_movement st it.product_id TransactionType.PURCHASE puid inv
        it.quantity it.unit_price now with
    | .error e => .error e
    | .ok st1 => purchaseMovements puid inv now st1 rest

/-- Modelled from the spec: Balance Aggregator adjust_balance for a supplier
(section 4.3). -/
def adjust_supplier_balance (st : LedgerState) (sid : Int) (delta : Rat)
    (now : Int) : LedgerState :=
  { st with
    suppliers := updateFirst (fun s => s.id == sid)
      (fun s => { s with
        current_balance := s.current_balance + delta,
        updated_at := now })
      st.suppliers }

/-- Modelled from the spec: Balance Aggregator adjust_balance for a customer
(section 4.3). -/
def adjust_customer_balance (st : LedgerState) (cid : Int) (delta : Rat)
    (now : Int) : LedgerState :=
  { st with
    customers := updateFirst (fun c => c.id == cid)
      (fun c => { c with
        current_balance := c.current_balance + delta,
        updated_at := now })
      st.customers }

/-- The invoice row and item rows persisted by create_purchase (section 4.4
step 4) before the Stock Ledger and Balance Aggregator run: the new Purchase
takes the next sequential id, paid_amount 0 and payment_status PENDING
(schema defaults, models.py lines 105-106). -/
def purchaseRow (st : LedgerState) (req : PurchaseCreate)
    (subtotal total_amount : Rat) (now : Int) : Purchase :=
  { id := (st.purchases.length : Int) + 1,
    invoice_number := req.invoice_number,
    supplier_id := req.supplier_id,
    transaction_date := req.transaction_date, due_date := req.due_date,
    subtotal := subtotal, tax_amount := req.tax_amount,
    discount_amount := req.discount_amount,
    total_amount := total_amount, paid_amount := 0,
    payment_status := PaymentStatus.PENDING, notes := req.notes,
    created_at := now, updated_at := now }

def purchaseStage (st : LedgerState) (req : PurchaseCreate)
    (subtotal total_amount : Rat) (now : Int) : LedgerState :=
  { st with
    purchases := st.purchases ++ [purchaseRow st req subtotal total_amount now],
    purchase_items := st.purchase_items ++
      mkPurchaseItems ((st.purchases.length : Int) + 1)
        st.purchase_items.length req.items }

/-- Modelled from the spec: Transaction Orchestrator create_purchase (section
4.4), all-or-nothing. The spec's header carries subtotal and total_amount for
the step-1 validation (total_amount = subtotal + tax_amount −
discount_amount); the repository's PurchaseCreate DTO omits both fields, so
they are passed alongside the DTO. Steps: header arithmetic, line-item
validation, subtotal consistency, schema ge=0 constraints, business-key
uniqueness, referenced rows, then persist invoice + items, record one stock
movement per item, and add total_amount to the supplier's balance. -/
def create_purchase (st : LedgerState) (req : PurchaseCreate)
    (subtotal total_amount : Rat) (now : Int) :
    Except LedgerError LedgerState :=
  if ¬ total_amount = subtotal + req.tax_amount - req.discount_amount then
    .error .invalidTotalsError
  else if ¬ req.items.all purchaseItemOk then .error .validationError
  else if ¬ subtotal = (req.items.map purchaseItemTotal).sum then
    .error .lineItemMismatchError
  else if ¬ (0 ≤ req.tax_amount ∧ 0 ≤ req.discount_amount ∧
             0 ≤ subtotal ∧ 0 ≤ total_amount) then
    .error .validationError
  else if st.purchases.any (fun p => p.invoice_number == req.invoice_number) then
    .error .duplicateKeyError
  else if ¬ st.suppliers.any (fun s => s.id == req.supplier_id) then
    .error .notFoundError
  else if ¬ req.items.all (fun it => st.products.any (fun p => p.id == it.product_id)) then
    .error .notFoundError
  else
    match purchaseMovements ((st.purchases.length : Int) + 1) req.invoice_number
        now (purchaseStage st req subtotal total_amount now) req.items with
    | .error e => .error e
    | .ok st2 => .ok (adjust_supplier_balance st2 req.supplier_id total_amount now)

/-- Line-item total for a sale item (section 3). -/
def saleItemTotal (it : SaleItemCreate) : Rat :=
  it.quantity * it.unit_price - it.discount_amount

/-- DTO field constraints of SaleItemCreate plus the ge=0 constraint on the
persisted SaleItem.total_amount. -/
def saleItemOk (it : SaleItemCreate) : Bool :=
  decide (0 < it.quantity) && decide (0 ≤ it.unit_price) &&
  decide (0 ≤ it.discount_amount) && decide (0 ≤ saleItemTotal it)

/-- Builds the persisted SaleItem rows with sequential ids. -/
def mkSaleItems (said : Int) (base : Nat) : List SaleItemCreate → List SaleItem
  | [] => []
  | it :: rest =>
    { id := (base : Int) + 1, sale_id := said, product_id := it.product_id,
      quantity := it.quantity, unit_price := it.unit_price,
      discount_amount := it.discount_amount,
      total_amount := saleItemTotal it } ::
    mkSaleItems said (base + 1) rest

/-- Aggregate quantity requested for one product across all line items of a
sale request (section 4.4 step 3). -/
def totalRequested (items : List SaleItemCreate) (pid : Int) : Rat :=
  ((items.filter (fun it => it.product_id == pid)).map SaleItemCreate.quantity).sum

/-- Modelled from the spec: the fail-fast aggregate stock pre-check of section
4.4 step 3, returning the first product (in line-item order) whose current
stock cannot cover the aggregate requested quantity. -/
def firstInsufficient (st : LedgerState) (items : List SaleItemCreate) :
    List SaleItemCreate → Option Int
  | [] => none
  | it :: rest =>
    match st.products.find? (fun p => p.id == it.product_id) with
    | none => some it.product_id
    | some p =>
      if p.stock_quantity < totalRequested items it.product_id then
        some it.product_id
      else firstInsufficient st items rest

/-- Modelled from the spec: the orchestrator invokes the Stock Ledger once per
sale line item, with negative quantity_delta (section 4.4 step 4). -/
def saleMovements (said : Int) (inv : String) (now : Int) :
    LedgerState → List SaleItemCreate → Except LedgerError LedgerState
  | st, [] => .ok st
  | st, it :: rest =>
    match record_movement st it.product_id TransactionType.SALE said inv
        (-it.quantity) it.unit_price now with
    | .error e => .error e
    | .ok st1 => saleMovements said inv now st1 rest

/-- The invoice row and item rows persisted by create_sale (section 4.4 step
4) before the Stock Ledger and Balance Aggregator run. -/
def saleRow (st : LedgerState) (req : SaleCreate)
    (subtotal total_amount : Rat) (now : Int) : Sale :=
  { id := (st.sales.length : Int) + 1,
    invoice_number := req.invoice_number,
    customer_id := req.customer_id,
    transaction_date := req.transaction_date,
    due_date := req.due_date, subtotal := subtotal,
    tax_amount := req.tax_amount,
    discount_amount := req.discount_amount,
    total_amount := total_amount, paid_amount := 0,
    payment_status := PaymentStatus.PENDING, notes := req.notes,
    created_at := now, updated_at := now }

def saleStage (st : LedgerState) (req : SaleCreate)
    (subtotal total_amount : Rat) (now : Int) : LedgerState :=
  { st with
    sales := st.sales ++ [saleRow st req subtotal total_amount now],
    sale_items := st.sale_items ++
      mkSaleItems ((st.sales.length : Int) + 1) st.sale_items.length req.items }

/-- Modelled from the spec: Transaction Orchestrator create_sale (section
4.4), all-or-nothing, mirroring create_purchase plus the step-3 aggregate
stock pre-check, which fails with insufficientStockError naming the first
insufficient product before any movement is recorded. -/
def create_sale (st : LedgerState) (req : SaleCreate)
    (subtotal total_amount : Rat) (now : Int) :
    Except LedgerError LedgerState :=
  if ¬ total_amount = subtotal + req.tax_amount - req.discount_amount then
    .error .invalidTotalsError
  else if ¬ req.items.all saleItemOk then .error .validationError
  else if ¬ subtotal = (req.items.map saleItemTotal).sum then
    .error .lineItemMismatchError
  else if ¬ (0 ≤ req.tax_amount ∧ 0 ≤ req.discount_amount ∧
             0 ≤ subtotal ∧ 0 ≤ total_amount) then
    .error .validationError
  else if st.sales.any (fun s => s.invoice_number == req.invoice_number) then
    .error .duplicateKeyError
  else if ¬ st.customers.any (fun c => c.id == req.customer_id) then
    .error .notFoundError
  else if ¬ req.items.all (fun it => st.products.any (fun p => p.id == it.product_id)) then
    .error .notFoundError
  else
    match firstInsufficient st req.items req.items with
    | some pid => .error (.insufficientStockError pid)
    | none =>
      match saleMovements ((st.sales.length : Int) + 1) req.invoice_number now
          (saleStage st req subtotal total_amount now) req.items with
      | .error e => .error e
      | .ok st2 => .ok (adjust_customer_balance st2 req.customer_id total_amount now)

/-- Modelled from the spec: recording a payable payment (sections 4.2-4.3).
The reconciler contract is apply_payment(invoice, amount): the payment must
name an existing purchase of the paying supplier (modelling choice, needed for
the section 4.3 per-party balance invariant); fails with overpaymentError when
paid_amount + amount would exceed total_amount; on success increments the
purchase's paid_amount, recomputes payment_status with derive_status, appends
the payment row and decrements the supplier's outstanding balance. -/
def create_payable_payment (st : LedgerState) (req : PayablePaymentCreate)
    (now : Int) : Except LedgerError LedgerState :=
  if ¬ 0 < req.payment_amount then .error .validationError
  else if st.payable_payments.any (fun p => p.payment_number == req.payment_number) then
    .error .duplicateKeyError
  else
    match req.purchase_id with
    | none => .error .notFoundError
    | some puid =>
      match st.purchases.find? (fun p => p.id == puid) with
      | none => .error .notFoundError
      | some pu =>
        if ¬ pu.supplier_id = req.supplier_id then .error .validationError
        else if ¬ st.suppliers.any (fun s => s.id == req.supplier_id) then
          .error .notFoundError
        else if pu.total_amount < pu.paid_amount + req.payment_amount then
          .error .overpaymentError
        else
          .ok { st with
            purchases := updateFirst (fun q => q.id == puid)
              (fun q => { q with
                paid_amount := q.paid_amount + req.payment_amount,
                payment_status := derive_status
                  (q.paid_amount + req.payment_amount) q.total_amount
                  q.due_date now,
                updated_at := now }) st.purchases,
            payable_payments := st.payable_payments ++
              [{ id := (st.payable_payments.length : Int) + 1,
                 payment_number := req.payment_number,
                 supplier_id := req.supplier_id, purchase_id := some puid,
                 payment_date := req.payment_date,
                 payment_amount := req.payment_amount,
                 payment_type := req.payment_type,
                 reference_number := req.reference_number, notes := req.notes,
                 created_at := now }],
            suppliers := updateFirst (fun s => s.id == req.supplier_id)
              (fun s => { s with
                current_balance := s.current_balance - req.payment_amount,
                updated_at := now }) st.suppliers }

/-- Modelled from the spec: recording a receivable payment, mirroring
create_payable_payment on the customer/sale side. -/
def create_receivable_payment (st : LedgerState) (req : ReceivablePaymentCreate)
    (now : Int) : Except LedgerError LedgerState :=
  if ¬ 0 < req.payment_amount then .error .validationError
  else if st.receivable_payments.any (fun p => p.payment_number == req.payment_number) then
    .error .duplicateKeyError
  else
    match req.sale_id with
    | none => .error .notFoundError
    | some said =>
      match st.sales.find? (fun s => s.id == said) with
      | none => .error .notFoundError
      | some sa =>
        if ¬ sa.customer_id = req.customer_id then .error .validationError
        else if ¬ st.customers.any (fun c => c.id == req.customer_id) then
          .error .notFoundError
        else if sa.total_amount < sa.paid_amount + req.payment_amount then
          .error .overpaymentError
        else
          .ok { st with
            sales := updateFirst (fun t => t.id == said)
              (fun t => { t with
                paid_amount := t.paid_amount + req.payment_amount,
                payment_status := derive_status
                  (t.paid_amount + req.payment_amount) t.total_amount
                  t.due_date now,
                updated_at := now }) st.sales,
            receivable_payments := st.receivable_payments ++
              [{ id := (st.receivable_payments.length : Int) + 1,
                 payment_number := req.payment_number,
                 customer_id := req.customer_id, sale_id := some said,
                 payment_date := req.payment_date,
                 payment_amount := req.payment_amount,
                 payment_type := req.payment_type,
                 reference_number := req.reference_number, notes := req.notes,
                 created_at := now }],
            customers := updateFirst (fun c => c.id == req.customer_id)
              (fun c => { c with
                current_balance := c.current_balance - req.payment_amount,
                updated_at := now }) st.customers }

/-- The mutating operations of the modelled engine. The reversal path is left
out: the spec itself marks reversal semantics as an open question (section 9,
last bullet). -/
inductive Op where
  | createProduct (req : ProductCreate) (now : Int)
  | updateProduct (pid : Int) (u : ProductUpdate) (now : Int)
  | createCustomer (req : CustomerCreate) (now : Int)
  | createSupplier (req : SupplierCreate) (now : Int)
  | createPurchase (req : PurchaseCreate) (subtotal total_amount : Rat) (now : Int)
  | createSale (req : SaleCreate) (subtotal total_amount : Rat) (now : Int)
  | payPayable (req : PayablePaymentCreate) (now : Int)
  | payReceivable (req : ReceivablePaymentCreate) (now : Int)

/-- Dispatches one operation. -/
def runOp (st : LedgerState) : Op → Except LedgerError LedgerState
  | .createProduct req now => create_product st req now
  | .updateProduct pid u now => update_product st pid u now
  | .createCustomer req now => create_customer st req now
  | .createSupplier req now => create_supplier st req now
  | .createPurchase req subtotal total_amount now =>
      create_purchase st req subtotal total_amount now
  | .createSale req subtotal total_amount now =>
      create_sale st req subtotal total_amount now
  | .payPayable req now => create_payable_payment st req now
  | .payReceivable req now => create_receivable_payment st req now

/-- Section 5: each call is one all-or-nothing unit of work; a failed call
rolls the store back to the prior state. -/
def applyOp (st : LedgerState) (op : Op) : LedgerState :=
  match runOp st op with
  | .ok st1 => st1
  | .error _ => st

/-- States reachable from the empty store through the modelled operations. -/
inductive Reachable : LedgerState → Prop where
  | init : Reachable initState
  | step (st : LedgerState) (op : Op) : Reachable st → Reachable (applyOp st op)

/-- The stock movements of one product, in creation (append) order. -/
def productMovs (st : LedgerState) (pid : Int) : List StockMovement :=
  st.stock_movements.filter (fun m => m.product_id == pid)

/-- Net quantity effect of one movement: quantity_in − quantity_out. -/
def movDelta (m : StockMovement) : Rat := m.quantity_in - m.quantity_out

/-- Every movement's balance_after is the running sum of net effects over
creation order, starting from acc. -/
def balancesFrom : Rat → List StockMovement → Prop
  | _, [] => True
  | acc, m :: rest =>
      m.balance_after = acc + movDelta m ∧ balancesFrom (acc + movDelta m) rest

/-- balancesFrom is decidable (used to evaluate witnesses). -/
def decBalancesFrom (acc : Rat) (l : List StockMovement) :
    Decidable (balancesFrom acc l) :=
  match l with
  | [] => .isTrue trivial
  | m :: rest =>
    haveI : Decidable (balancesFrom (acc + movDelta m) rest) :=
      decBalancesFrom (acc + movDelta m) rest
    inferInstanceAs (Decidable (_ ∧ _))

instance (acc : Rat) (l : List StockMovement) : Decidable (balancesFrom acc l) :=
  decBalancesFrom acc l

/-- Section 8, first bullet: each product's cached stock_quantity equals the
sum of (quantity_in − quantity_out) over its movements, never negative, and
balance_after is a running sum over creation order. -/
def stockInvariant (st : LedgerState) : Prop :=
  ∀ p ∈ st.products,
    p.stock_quantity = ((productMovs st p.id).map movDelta).sum ∧
    0 ≤ p.stock_quantity ∧
    balancesFrom 0 (productMovs st p.id)

/-- Section 3, StockMovement: at most one of quantity_in and quantity_out is
nonzero per record, and both are non-negative. -/
def movementXorInvariant (st : LedgerState) : Prop :=
  ∀ m ∈ st.stock_movements,
    (m.quantity_in = 0 ∨ m.quantity_out = 0) ∧
    0 ≤ m.quantity_in ∧ 0 ≤ m.quantity_out

/-- Section 8, second bullet: 0 ≤ paid_amount ≤ total_amount for every
invoice. -/
def paidBoundsInvariant (st : LedgerState) : Prop :=
  (∀ pu ∈ st.purchases, 0 ≤ pu.paid_amount ∧ pu.paid_amount ≤ pu.total_amount) ∧
  (∀ sa ∈ st.sales, 0 ≤ sa.paid_amount ∧ sa.paid_amount ≤ sa.total_amount)

/-- Outstanding receivables of one customer recomputed from scratch: the sum
of (total_amount − paid_amount) over that customer's sales. The schema has no
voided state for invoices (spec section 9), so all stored invoices count. -/
def customerOutstanding (st : LedgerState) (cid : Int) : Rat :=
  ((st.sales.filter (fun s => s.customer_id == cid)).map
    (fun s => s.total_amount - s.paid_amount)).sum

/-- Outstanding payables of one supplier recomputed from scratch. -/
def supplierOutstanding (st : LedgerState) (sid : Int) : Rat :=
  ((st.purchases.filter (fun p => p.supplier_id == sid)).map
    (fun p => p.total_amount - p.paid_amount)).sum

/-- Section 8, third bullet: every party's cached current_balance equals its
from-scratch outstanding sum. -/
def balanceInvariant (st : LedgerState) : Prop :=
  (∀ c ∈ st.customers, c.current_balance = customerOutstanding st c.id) ∧
  (∀ s ∈ st.suppliers, s.current_balance = supplierOutstanding st s.id)

/-- Sequential surrogate ids 1..n, as assigned by the persistence layer. -/
def idSeq (n : Nat) : List Int := (List.range n).map (fun i : Nat => (i : Int) + 1)

/-- Referential and key bookkeeping maintained by the engine: each table's ids
are the sequence 1..n, and foreign keys reference existing rows. -/
structure AuxInv (st : LedgerState) : Prop where
  prodIds : st.products.map Product.id = idSeq st.products.length
  custIds : st.customers.map Customer.id = idSeq st.customers.length
  suppIds : st.suppliers.map Supplier.id = idSeq st.suppliers.length
  purchIds : st.purchases.map Purchase.id = idSeq st.purchases.length
  saleIds : st.sales.map Sale.id = idSeq st.sales.length
  movProd : ∀ m ∈ st.stock_movements, m.product_id ∈ st.products.map Product.id
  saleCust : ∀ s ∈ st.sales, s.customer_id ∈ st.customers.map Customer.id
  purchSupp : ∀ p ∈ st.purchases, p.supplier_id ∈ st.suppliers.map Supplier.id

/-- The full reconciliation invariant of the ledger engine. -/
structure Inv (st : LedgerState) : Prop where
  aux : AuxInv st
  stock : stockInvariant st
  movXor : movementXorInvariant st
  paid : paidBoundsInvariant st
  balance : balanceInvariant st

/-- The stock-side part of the invariant, preserved movement by movement
(used while an orchestrator call is mid-flight, when the balance side is
restored only at the end of the unit of work). -/
def StockCore (st : LedgerState) : Prop :=
  st.products.map Product.id = idSeq st.products.length ∧
  (∀ m ∈ st.stock_movements, m.product_id ∈ st.products.map Product.id) ∧
  stockInvariant st ∧ movementXorInvariant st

/-- All tables other than products and stock_movements agree between two
states (and products keeps its length): the frame of the Stock Ledger. -/
def OtherTablesEq (a b : LedgerState) : Prop :=
  a.customers = b.customers ∧ a.suppliers = b.suppliers ∧
  a.purchases = b.purchases ∧ a.sales = b.sales ∧
  a.purchase_items = b.purchase_items ∧ a.sale_items = b.sale_items ∧
  a.payable_payments = b.payable_payments ∧
  a.receivable_payments = b.receivable_payments

/-! Concrete sample data: one product, one customer, one supplier, a purchase
of 10 units at 3.00, a sale of 4 units at 5.00, a customer payment of 5.00
and a supplier payment of 30.00, driven through the engine in order. -/

def reqProductW : ProductCreate := ⟨"P1", "Widget", "", "pcs", 3, 5, 0⟩

def reqCustomerW : CustomerCreate := ⟨"C1", "Alice", none, none, "", 0⟩

def reqSupplierW : SupplierCreate := ⟨"S1", "Acme", none, none, ""⟩

def reqPurchaseW : PurchaseCreate := ⟨"PO-1", 1, 0, none, 0, 0, "", [⟨1, 10, 3, 0⟩]⟩

def reqSaleW : SaleCreate := ⟨"INV-1", 1, 0, none, 0, 0, "", [⟨1, 4, 5, 0⟩]⟩

def reqRecvPayW : ReceivablePaymentCreate :=
  ⟨"RP-1", 1, some 1, 0, 5, PaymentType.CASH, "", ""⟩

def reqPayPayW : PayablePaymentCreate :=
  ⟨"PP-1", 1, some 1, 0, 30, PaymentType.CASH, "", ""⟩

def stW : LedgerState :=
  applyOp (applyOp (applyOp (applyOp (applyOp (applyOp (applyOp initState
    (Op.createProduct reqProductW 0))
    (Op.createCustomer reqCustomerW 0))
    (Op.createSupplier reqSupplierW 0))
    (Op.createPurchase reqPurchaseW 30 30 0))
    (Op.createSale reqSaleW 20 20 0))
    (Op.payReceivable reqRecvPayW 1))
    (Op.payPayable reqPayPayW 1)

/-! Hand-built fixture rows and states for exercising the error paths. -/

def productW10 : Product :=
  ⟨1, "P1", "Widget", "", "pcs", 3, 5, 10, 0, true, 0, 0⟩

def customerW1 : Customer :=
  ⟨1, "C1", "Alice", none, none, "", 0, 20, true, 0, 0⟩

def supplierW1 : Supplier :=
  ⟨1, "S1", "Acme", none, none, "", 20, true, 0, 0⟩

def saleW5030 : Sale :=
  ⟨1, "INV-1", 1, 0, none, 50, 0, 0, 50, 30, PaymentStatus.PARTIAL, "", 0, 0⟩

def purchaseW5030 : Purchase :=
  ⟨1, "PO-1", 1, 0, none, 50, 0, 0, 50, 30, PaymentStatus.PARTIAL, "", 0, 0⟩

/-- A store with one product holding 10 units of stock and one customer. -/
def stC2 : LedgerState :=
  ⟨[productW10], [customerW1], [], [], [], [], [], [], [], []⟩

/-- A sale request for 11 units of product 1 at 5.00 (subtotal and total
55.00), exceeding the stock of 10. -/
def reqSaleBad : SaleCreate :=
  ⟨"INV-2", 1, 0, none, 0, 0, "", [⟨1, 11, 5, 0⟩]⟩

/-- A store holding one 50.00 invoice on each side, both already 30.00 paid. -/
def stC3 : LedgerState :=
  ⟨[], [customerW1], [supplierW1], [purchaseW5030], [], [saleW5030], [], [], [], []⟩

/-- A 25.00 customer payment against the 50.00/30.00 sale: 5.00 over. -/
def reqRecvPayBad : ReceivablePaymentCreate :=
  ⟨"RP-9", 1, some 1, 0, 25, PaymentType.CASH, "", ""⟩

/-- A 25.00 supplier payment against the 50.00/30.00 purchase: 5.00 over. -/
def reqPayPayBad : PayablePaymentCreate :=
  ⟨"PP-9", 1, some 1, 0, 25, PaymentType.CASH, "", ""⟩

/-- The state produced by creating a product in the empty store. -/
def stC9 : LedgerState :=
  { initState with products := [mkProduct reqProductW 1 0] }

/-! Helper lemmas about the id sequence, updateFirst and running balances. -/

theorem idSeq_succ (n : Nat) : idSeq (n + 1) = idSeq n ++ [(n : Int) + 1] := by
  simp [idSeq, List.range_succ]

theorem mem_idSeq {x : Int} {n : Nat} : x ∈ idSeq n ↔ 1 ≤ x ∧ x ≤ (n : Int) := by
  simp only [idSeq, List.mem_map, List.mem_range]
  constructor
  · rintro ⟨i, hi, rfl⟩; omega
  · rintro ⟨h1, h2⟩
    exact ⟨(x - 1).toNat, by omega, by omega⟩

theorem idSeq_nodup (n : Nat) : (idSeq n).Nodup := by
  unfold idSeq
  exact (List.nodup_range n).map (fun a b h => by omega)

theorem updateFirst_cases (key : α → Bool) (g : α → α) (l : List α) :
    (l.find? key = none ∧ updateFirst key g l = l) ∨
    ∃ l₁ y l₂, l = l₁ ++ y :: l₂ ∧ (∀ x ∈ l₁, key x = false) ∧ key y = true ∧
      l.find? key = some y ∧ updateFirst key g l = l₁ ++ g y :: l₂ := by
  induction l with
  | nil => exact Or.inl ⟨rfl, rfl⟩
  | cons x xs ih =>
    cases hx : key x with
    | true =>
      right
      exact ⟨[], x, xs, rfl, by simp, hx,
        by rw [List.find?_cons_of_pos _ hx], by simp [updateFirst, hx]⟩
    | false =>
      rcases ih with ⟨h1, h2⟩ | ⟨l₁, y, l₂, rfl, hl₁, hy, hf, hu⟩
      · left
        refine ⟨?_, ?_⟩
        · rw [List.find?_cons_of_neg _ (by simp [hx]), h1]
        · simp [updateFirst, hx, h2]
      · right
        refine ⟨x :: l₁, y, l₂, rfl, ?_, hy, ?_, ?_⟩
        · intro z hz
          rcases List.mem_cons.mp hz with rfl | hz
          · exact hx
          · exact hl₁ z hz
        · rw [List.find?_cons_of_neg _ (by simp [hx]), hf]
        · simp [updateFirst, hx, hu]

theorem map_updateFirst (key : α → Bool) (g : α → α) (f : α → β) (l : List α)
    (h : ∀ x, f (g x) = f x) : (updateFirst key g l).map f = l.map f := by
  induction l with
  | nil => rfl
  | cons x xs ih =>
    by_cases hx : key x = true
    · simp [updateFirst, hx, h]
    · simp [updateFirst, hx, ih]

theorem mem_updateFirst {key : α → Bool} {g : α → α} {l : List α} {x : α}
    (h : x ∈ updateFirst key g l) : x ∈ l ∨ ∃ y, y ∈ l ∧ x = g y := by
  induction l with
  | nil => simp [updateFirst] at h
  | cons z zs ih =>
    by_cases hz : key z = true
    · simp only [updateFirst, hz, if_true, List.mem_cons] at h
      rcases h with h | h
      · exact Or.inr ⟨z, List.mem_cons_self z zs, h⟩
      · exact Or.inl (List.mem_cons_of_mem _ h)
    · simp [updateFirst, hz, List.mem_cons] at h
      rcases h with h | h
      · exact Or.inl (h ▸ List.mem_cons_self z zs)
      · rcases ih h with h | ⟨y, hy, hxy⟩
        · exact Or.inl (List.mem_cons_of_mem _ h)
        · exact Or.inr ⟨y, List.mem_cons_of_mem _ hy, hxy⟩

theorem balancesFrom_snoc (acc : Rat) (l : List StockMovement) (m : StockMovement) :
    balancesFrom acc (l ++ [m]) ↔
      balancesFrom acc l ∧
      m.balance_after = acc + (l.map movDelta).sum + movDelta m := by
  induction l generalizing acc with
  | nil => simp [balancesFrom]
  | cons x xs ih =>
    have h := ih (acc + movDelta x)
    simp only [List.cons_append, balancesFrom, List.append_eq]
    rw [h, List.map_cons, List.sum_cons, ← add_assoc]
    tauto

theorem key_split_of_nodup {f : α → Int} {l₁ l₂ : List α} {y : α}
    (h : ((l₁ ++ y :: l₂).map f).Nodup) :
    (∀ x ∈ l₁, ¬ f x = f y) ∧ (∀ x ∈ l₂, ¬ f x = f y) := by
  simp only [List.map_append, List.map_cons, List.nodup_append] at h
  obtain ⟨h1, h2, h3⟩ := h
  constructor
  · intro x hx hfx
    exact h3 (List.mem_map_of_mem f hx) (by simp [hfx])
  · intro x hx hfx
    rcases List.nodup_cons.mp h2 with ⟨hny, _⟩
    exact hny (hfx ▸ List.mem_map_of_mem f hx)

theorem length_updateFirst (key : α → Bool) (g : α → α) (l : List α) :
    (updateFirst key g l).length = l.length := by
  induction l with
  | nil => rfl
  | cons x xs ih => by_cases hx : key x = true <;> simp [updateFirst, hx, ih]

theorem sum_filter_snoc (q : α → Bool) (f : α → Rat) (l : List α) (m : α) :
    (((l ++ [m]).filter q).map f).sum =
      ((l.filter q).map f).sum + (if q m then f m else 0) := by
  by_cases h : q m = true <;> simp [List.filter_append, h]

theorem filter_snoc_pos (q : α → Bool) (l : List α) (m : α) (h : q m = true) :
    (l ++ [m]).filter q = l.filter q ++ [m] := by
  simp [List.filter_append, h]

theorem filter_snoc_neg (q : α → Bool) (l : List α) (m : α) (h : q m = false) :
    (l ++ [m]).filter q = l.filter q := by
  simp [List.filter_append, h]

/-- One Stock Ledger call preserves the stock-side invariant, touches no other
table, and keeps the product count, provided a purchase delta is
non-negative (the orchestrator passes the validated positive item quantity). -/
theorem record_movement_preserves {st st' : LedgerState} {pid : Int}
    {ttype : TransactionType} {rid : Int} {rnum : String} {delta cost : Rat}
    {date : Int}
    (hd : ttype = TransactionType.PURCHASE → 0 ≤ delta)
    (h : record_movement st pid ttype rid rnum delta cost date = .ok st')
    (hC : StockCore st) :
    StockCore st' ∧ OtherTablesEq st' st ∧
      st'.products.length = st.products.length := by
  obtain ⟨hIds, hMov, hStock, hXor⟩ := hC
  unfold record_movement at h
  split at h
  · exact Except.noConfusion h
  next p hfind =>
    split at h
    · exact Except.noConfusion h
    next hguard =>
      injection h with h
      subst h
      have hpmem : p ∈ st.products := List.mem_of_find?_eq_some hfind
      have hpid : p.id = pid := by
        have := List.find?_some hfind
        rwa [beq_iff_eq] at this
      have hbal : 0 ≤ p.stock_quantity + delta := by
        cases ttype with
        | SALE =>
          by_contra hlt
          exact hguard ⟨rfl, lt_of_not_le hlt⟩
        | PURCHASE =>
          have h1 := hd rfl
          have h2 := (hStock p hpmem).2.1
          linarith
      have hdelta_eq :
          movDelta (mkMovement st pid ttype rid rnum delta cost date
            (p.stock_quantity + delta)) = delta := by
        unfold movDelta mkMovement
        by_cases hδ : (0 : Rat) ≤ delta <;> simp [hδ]
      rcases updateFirst_cases (fun q => q.id == pid)
          (stockCacheUpd (p.stock_quantity + delta) date) st.products with
        ⟨hnone, _⟩ | ⟨l₁, y, l₂, hsplit, hl₁, hy, hfind2, hupd⟩
      · rw [hfind] at hnone
        exact Option.noConfusion hnone
      · have hyp : p = y := by
          rw [hfind] at hfind2
          injection hfind2 with hfind2
        subst hyp
        have hNd : (st.products.map Product.id).Nodup := by
          rw [hIds]; exact idSeq_nodup _
        have hsplitNd := key_split_of_nodup (f := Product.id) (hsplit ▸ hNd)
        have hmapEq : (updateFirst (fun q => q.id == pid)
            (stockCacheUpd (p.stock_quantity + delta) date)
            st.products).map Product.id = st.products.map Product.id :=
          map_updateFirst _ _ _ _ (fun x => rfl)
        have hlenEq := length_updateFirst (fun q : Product => q.id == pid)
          (stockCacheUpd (p.stock_quantity + delta) date) st.products
        have hpidMem : pid ∈ st.products.map Product.id :=
          hpid ▸ List.mem_map_of_mem Product.id hpmem
        refine ⟨⟨?_, ?_, ?_, ?_⟩, ⟨rfl, rfl, rfl, rfl, rfl, rfl, rfl, rfl⟩, hlenEq⟩
        -- prodIds: the id list and its length are untouched by the cache update
        · dsimp only
          rw [hmapEq, hlenEq]
          exact hIds
        -- movProd: the appended movement references the found product
        · intro mv hmv
          dsimp only at hmv ⊢
          rw [hmapEq]
          rcases List.mem_append.mp hmv with hmv | hmv
          · exact hMov mv hmv
          · rcases List.mem_singleton.mp hmv with rfl
            exact hpidMem
        -- stockInvariant
        · unfold stockInvariant productMovs at hStock ⊢
          intro x hx
          dsimp only at hx ⊢
          rw [hupd] at hx
          have hmain : ∀ z, z ∈ st.products → ¬ z.id = pid →
              (z.stock_quantity =
                (((st.stock_movements ++
                  [mkMovement st pid ttype rid rnum delta cost date
                    (p.stock_quantity + delta)]).filter
                      (fun m => m.product_id == z.id)).map movDelta).sum ∧
                0 ≤ z.stock_quantity ∧
                balancesFrom 0 ((st.stock_movements ++
                  [mkMovement st pid ttype rid rnum delta cost date
                    (p.stock_quantity + delta)]).filter
                      (fun m => m.product_id == z.id))) := by
            intro z hz hne
            have hfilt := filter_snoc_neg
              (fun m : StockMovement => m.product_id == z.id) st.stock_movements
              (mkMovement st pid ttype rid rnum delta cost date
                (p.stock_quantity + delta))
              (by
                simp only [mkMovement, beq_eq_false_iff_ne, ne_eq]
                intro hcontra
                exact hne hcontra.symm)
            rw [hfilt]
            exact hStock z hz
          rcases List.mem_append.mp hx with hx | hx
          · have hne : ¬ x.id = pid := by
              have := hl₁ x hx
              simpa [beq_iff_eq] using this
            exact hmain x (hsplit ▸ List.mem_append_left _ hx) hne
          · rcases List.mem_cons.mp hx with rfl | hx
            · show p.stock_quantity + delta =
                (((st.stock_movements ++
                  [mkMovement st pid ttype rid rnum delta cost date
                    (p.stock_quantity + delta)]).filter
                      (fun m => m.product_id == p.id)).map movDelta).sum ∧
                0 ≤ p.stock_quantity + delta ∧
                balancesFrom 0 ((st.stock_movements ++
                  [mkMovement st pid ttype rid rnum delta cost date
                    (p.stock_quantity + delta)]).filter
                      (fun m => m.product_id == p.id))
              have hfilt := filter_snoc_pos
                (fun m : StockMovement => m.product_id == p.id)
                st.stock_movements
                (mkMovement st pid ttype rid rnum delta cost date
                  (p.stock_quantity + delta))
                (by simp [mkMovement, hpid])
              obtain ⟨hsum, hnn, hbalances⟩ := hStock p hpmem
              refine ⟨?_, hbal, ?_⟩
              · rw [hfilt, List.map_append, List.sum_append, ← hsum]
                simp [hdelta_eq]
              · rw [hfilt, balancesFrom_snoc, hdelta_eq]
                refine ⟨hbalances, ?_⟩
                show p.stock_quantity + delta = _
                rw [← hsum]
                ring
            · have hne : ¬ x.id = pid := by
                have := hsplitNd.2 x hx
                rw [hpid] at this
                exact this
              exact hmain x
                (hsplit ▸ List.mem_append_right _ (List.mem_cons_of_mem _ hx)) hne
        -- movementXorInvariant
        · intro mv hmv
          dsimp only at hmv
          rcases List.mem_append.mp hmv with hmv | hmv
          · exact hXor mv hmv
          · rcases List.mem_singleton.mp hmv with rfl
            unfold mkMovement
            by_cases hδ : (0 : Rat) ≤ delta
            · exact ⟨Or.inr (by simp [hδ]), by simp [hδ], by simp [hδ]⟩
            · refine ⟨Or.inl (by simp [hδ]), by simp [hδ], ?_⟩
              simp only [hδ, if_false]
              linarith [lt_of_not_le hδ]

theorem otherTablesEq_refl (a : LedgerState) : OtherTablesEq a a :=
  ⟨rfl, rfl, rfl, rfl, rfl, rfl, rfl, rfl⟩

theorem otherTablesEq_trans {a b c : LedgerState}
    (h1 : OtherTablesEq a b) (h2 : OtherTablesEq b c) : OtherTablesEq a c := by
  obtain ⟨a1, a2, a3, a4, a5, a6, a7, a8⟩ := h1
  obtain ⟨b1, b2, b3, b4, b5, b6, b7, b8⟩ := h2
  exact ⟨a1.trans b1, a2.trans b2, a3.trans b3, a4.trans b4,
    a5.trans b5, a6.trans b6, a7.trans b7, a8.trans b8⟩

/-- The purchase-side Stock Ledger fold preserves the stock invariant and the
frame, given the validated positive item quantities. -/
theorem purchaseMovements_preserves {puid : Int} {inv : String} {now : Int} :
    ∀ (items : List PurchaseItemCreate) (st st' : LedgerState),
    (∀ it ∈ items, 0 ≤ it.quantity) →
    purchaseMovements puid inv now st items = .ok st' →
    StockCore st →
    StockCore st' ∧ OtherTablesEq st' st ∧
      st'.products.length = st.products.length := by
  intro items
  induction items with
  | nil =>
    intro st st' _ h hC
    unfold purchaseMovements at h
    injection h with h
    subst h
    exact ⟨hC, otherTablesEq_refl st, rfl⟩
  | cons it rest ih =>
    intro st st' hq h hC
    unfold purchaseMovements at h
    split at h
    · exact Except.noConfusion h
    next st1 hrec =>
      have h1 := record_movement_preserves
        (fun _ => hq it (List.mem_cons_self it rest)) hrec hC
      have h2 := ih st1 st' (fun x hx => hq x (List.mem_cons_of_mem _ hx)) h h1.1
      exact ⟨h2.1, otherTablesEq_trans h2.2.1 h1.2.1, h2.2.2.trans h1.2.2⟩

/-- The sale-side Stock Ledger fold preserves the stock invariant and the
frame; the negative-stock guard inside record_movement needs no side
condition here. -/
theorem saleMovements_preserves {said : Int} {inv : String} {now : Int} :
    ∀ (items : List SaleItemCreate) (st st' : LedgerState),
    saleMovements said inv now st items = .ok st' →
    StockCore st →
    StockCore st' ∧ OtherTablesEq st' st ∧
      st'.products.length = st.products.length := by
  intro items
  induction items with
  | nil =>
    intro st st' h hC
    unfold saleMovements at h
    injection h with h
    subst h
    exact ⟨hC, otherTablesEq_refl st, rfl⟩
  | cons it rest ih =>
    intro st st' h hC
    unfold saleMovements at h
    split at h
    · exact Except.noConfusion h
    next st1 hrec =>
      have h1 := record_movement_preserves
        (fun hc => TransactionType.noConfusion hc) hrec hC
      have h2 := ih st1 st' h h1.1
      exact ⟨h2.1, otherTablesEq_trans h2.2.1 h1.2.1, h2.2.2.trans h1.2.2⟩

/-- Product creation preserves the full invariant: the new row starts with
zero stock, no movements reference the fresh id, and nothing else changes. -/
theorem inv_create_product {st st' : LedgerState} {req : ProductCreate}
    {now : Int} (h : create_product st req now = .ok st') (hI : Inv st) :
    Inv st' := by
  unfold create_product at h
  split at h
  · exact Except.noConfusion h
  split at h
  · exact Except.noConfusion h
  injection h with h
  subst h
  obtain ⟨⟨hPid, hCid, hSid, hUid, hLid, hMov, hSC, hPS⟩, hStock, hXor, hPaid, hBal⟩ := hI
  have hfresh : ∀ m ∈ st.stock_movements,
      ¬ (m.product_id == (st.products.length : Int) + 1) = true := by
    intro m hm
    have hmem := hMov m hm
    rw [hPid, mem_idSeq] at hmem
    simp only [beq_iff_eq]
    omega
  refine ⟨⟨?_, hCid, hSid, hUid, hLid, ?_, hSC, hPS⟩, ?_, hXor, hPaid, hBal⟩
  · dsimp only
    rw [List.map_append, List.length_append, hPid]
    simp [idSeq_succ, mkProduct]
  · intro m hm
    dsimp only at hm ⊢
    rw [List.map_append]
    exact List.mem_append_left _ (hMov m hm)
  · intro x hx
    dsimp only at hx ⊢
    rcases List.mem_append.mp hx with hx | hx
    · exact hStock x hx
    · rcases List.mem_singleton.mp hx with rfl
      have hnil : st.stock_movements.filter
          (fun m => m.product_id == (st.products.length : Int) + 1) = [] :=
        List.filter_eq_nil_iff.mpr hfresh
      refine ⟨?_, le_refl 0, ?_⟩
      · show (0 : Rat) = _
        unfold productMovs
        dsimp only
        rw [show (mkProduct req ((st.products.length : Int) + 1) now).id =
          (st.products.length : Int) + 1 from rfl, hnil]
        simp
      · unfold productMovs
        dsimp only
        rw [show (mkProduct req ((st.products.length : Int) + 1) now).id =
          (st.products.length : Int) + 1 from rfl, hnil]
        exact trivial

/-- Customer creation preserves the full invariant: the new row starts with
balance 0 and no sale references the fresh id. -/
theorem inv_create_customer {st st' : LedgerState} {req : CustomerCreate}
    {now : Int} (h : create_customer st req now = .ok st') (hI : Inv st) :
    Inv st' := by
  unfold create_customer at h
  split at h
  · exact Except.noConfusion h
  split at h
  · exact Except.noConfusion h
  injection h with h
  subst h
  obtain ⟨⟨hPid, hCid, hSid, hUid, hLid, hMov, hSC, hPS⟩, hStock, hXor, hPaid, hBal⟩ := hI
  have hfresh : ∀ s ∈ st.sales,
      ¬ (s.customer_id == (st.customers.length : Int) + 1) = true := by
    intro s hs
    have hmem := hSC s hs
    rw [hCid, mem_idSeq] at hmem
    simp only [beq_iff_eq]
    omega
  refine ⟨⟨hPid, ?_, hSid, hUid, hLid, hMov, ?_, hPS⟩, hStock, hXor, hPaid, ?_, hBal.2⟩
  · dsimp only
    rw [List.map_append, List.length_append, hCid]
    simp [idSeq_succ]
  · intro s hs
    dsimp only at hs ⊢
    rw [List.map_append]
    exact List.mem_append_left _ (hSC s hs)
  · intro c hc
    dsimp only at hc ⊢
    rcases List.mem_append.mp hc with hc | hc
    · exact hBal.1 c hc
    · rcases List.mem_singleton.mp hc with rfl
      show (0 : Rat) = _
      unfold customerOutstanding
      dsimp only
      rw [List.filter_eq_nil_iff.mpr hfresh]
      simp

/-- Supplier creation preserves the full invariant. -/
theorem inv_create_supplier {st st' : LedgerState} {req : SupplierCreate}
    {now : Int} (h : create_supplier st req now = .ok st') (hI : Inv st) :
    Inv st' := by
  unfold create_supplier at h
  split at h
  · exact Except.noConfusion h
  injection h with h
  subst h
  obtain ⟨⟨hPid, hCid, hSid, hUid, hLid, hMov, hSC, hPS⟩, hStock, hXor, hPaid, hBal⟩ := hI
  have hfresh : ∀ p ∈ st.purchases,
      ¬ (p.supplier_id == (st.suppliers.length : Int) + 1) = true := by
    intro p hp
    have hmem := hPS p hp
    rw [hSid, mem_idSeq] at hmem
    simp only [beq_iff_eq]
    omega
  refine ⟨⟨hPid, hCid, ?_, hUid, hLid, hMov, hSC, ?_⟩, hStock, hXor, hPaid, hBal.1, ?_⟩
  · dsimp only
    rw [List.map_append, List.length_append, hSid]
    simp [idSeq_succ]
  · intro p hp
    dsimp only at hp ⊢
    rw [List.map_append]
    exact List.mem_append_left _ (hPS p hp)
  · intro s hs
    dsimp only at hs ⊢
    rcases List.mem_append.mp hs with hs | hs
    · exact hBal.2 s hs
    · rcases List.mem_singleton.mp hs with rfl
      show (0 : Rat) = _
      unfold supplierOutstanding
      dsimp only
      rw [List.filter_eq_nil_iff.mpr hfresh]
      simp

/-- Product update preserves the full invariant: the update DTO cannot touch
id, code, stock_quantity or created_at. -/
theorem inv_update_product {st st' : LedgerState} {pid : Int}
    {u : ProductUpdate} {now : Int}
    (h : update_product st pid u now = .ok st') (hI : Inv st) : Inv st' := by
  unfold update_product at h
  split at h
  · exact Except.noConfusion h
  split at h
  · exact Except.noConfusion h
  injection h with h
  subst h
  obtain ⟨⟨hPid, hCid, hSid, hUid, hLid, hMov, hSC, hPS⟩, hStock, hXor, hPaid, hBal⟩ := hI
  have hmapEq : (updateFirst (fun p => p.id == pid)
      (fun p => apply_product_update p u now) st.products).map Product.id =
      st.products.map Product.id :=
    map_updateFirst _ _ _ _ (fun x => rfl)
  have hlenEq := length_updateFirst (fun p : Product => p.id == pid)
    (fun p => apply_product_update p u now) st.products
  refine ⟨⟨?_, hCid, hSid, hUid, hLid, ?_, hSC, hPS⟩, ?_, hXor, hPaid, hBal⟩
  · dsimp only
    rw [hmapEq, hlenEq]
    exact hPid
  · intro m hm
    dsimp only at hm ⊢
    rw [hmapEq]
    exact hMov m hm
  · intro x hx
    dsimp only at hx ⊢
    rcases mem_updateFirst hx with hx | ⟨y, hy, rfl⟩
    · exact hStock x hx
    · exact hStock y hy

theorem sum_filter_middle (q : α → Bool) (f : α → Rat) (l₁ l₂ : List α) (y : α) :
    (((l₁ ++ y :: l₂).filter q).map f).sum =
      ((l₁.filter q).map f).sum + (if q y then f y else 0) +
      ((l₂.filter q).map f).sum := by
  by_cases h : q y = true <;>
    simp [List.filter_append, List.filter_cons, h] <;>
    try ring

/-- Recording a receivable payment preserves the full invariant: paid_amount
grows within the overpayment bound and the customer balance drops by exactly
the payment amount. -/
theorem inv_create_receivable_payment {st st' : LedgerState}
    {req : ReceivablePaymentCreate} {now : Int}
    (h : create_receivable_payment st req now = .ok st') (hI : Inv st) :
    Inv st' := by
  unfold create_receivable_payment at h
  split at h
  · exact Except.noConfusion h
  rename_i hamt0
  split at h
  · exact Except.noConfusion h
  rename_i hdup
  split at h
  · exact Except.noConfusion h
  rename_i said hsid
  split at h
  · exact Except.noConfusion h
  rename_i sa hfindS
  split at h
  · exact Except.noConfusion h
  rename_i hcust0
  split at h
  · exact Except.noConfusion h
  rename_i hanyC0
  split at h
  · exact Except.noConfusion h
  rename_i hover0
  injection h with h
  subst h
  obtain ⟨⟨hPid, hCid, hSid, hUid, hLid, hMov, hSC, hPS⟩, hStock, hXor, hPaid, hBal⟩ := hI
  have hamt : 0 < req.payment_amount := not_not.mp hamt0
  have hcust : sa.customer_id = req.customer_id := not_not.mp hcust0
  have hanyC : st.customers.any (fun c => c.id == req.customer_id) = true :=
    not_not.mp hanyC0
  have hover : sa.paid_amount + req.payment_amount ≤ sa.total_amount :=
    not_lt.mp hover0
  have hsa_mem : sa ∈ st.sales := List.mem_of_find?_eq_some hfindS
  have hsa_id : sa.id = said := by
    have := List.find?_some hfindS
    rwa [beq_iff_eq] at this
  -- decompose the sales update
  rcases updateFirst_cases (fun t => t.id == said)
      (fun t => { t with
        paid_amount := t.paid_amount + req.payment_amount,
        payment_status := derive_status
          (t.paid_amount + req.payment_amount) t.total_amount
          t.due_date now,
        updated_at := now }) st.sales with
    ⟨hnoneS, _⟩ | ⟨m₁, ys, m₂, hsplitS, hm₁, hys, hfindS2, hupdS⟩
  · rw [hfindS] at hnoneS
    exact Option.noConfusion hnoneS
  have hysa : sa = ys := by
    rw [hfindS] at hfindS2
    injection hfindS2 with hfindS2
  subst hysa
  -- decompose the customers update
  rcases updateFirst_cases (fun c => c.id == req.customer_id)
      (fun c => { c with
        current_balance := c.current_balance - req.payment_amount,
        updated_at := now }) st.customers with
    ⟨hnoneC, _⟩ | ⟨c₁, yc, c₂, hsplitC, hc₁, hyc, hfindC, hupdC⟩
  · have := List.find?_eq_none.mp hnoneC
    rcases List.any_eq_true.mp hanyC with ⟨c, hcm, hcp⟩
    exact absurd hcp (by simp [this c hcm])
  have hyc_id : yc.id = req.customer_id := by
    have := hyc
    rwa [beq_iff_eq] at this
  have hNdS : (st.sales.map Sale.id).Nodup := by
    rw [hLid]; exact idSeq_nodup _
  have hNdC : (st.customers.map Customer.id).Nodup := by
    rw [hCid]; exact idSeq_nodup _
  have hsplitNdS := key_split_of_nodup (f := Sale.id) (hsplitS ▸ hNdS)
  have hsplitNdC := key_split_of_nodup (f := Customer.id) (hsplitC ▸ hNdC)
  have hmapS : (updateFirst (fun t => t.id == said)
      (fun t => { t with
        paid_amount := t.paid_amount + req.payment_amount,
        payment_status := derive_status
          (t.paid_amount + req.payment_amount) t.total_amount
          t.due_date now,
        updated_at := now }) st.sales).map Sale.id = st.sales.map Sale.id :=
    map_updateFirst _ _ _ _ (fun x => rfl)
  have hmapC : (updateFirst (fun c => c.id == req.customer_id)
      (fun c => { c with
        current_balance := c.current_balance - req.payment_amount,
        updated_at := now }) st.customers).map Customer.id =
      st.customers.map Customer.id :=
    map_updateFirst _ _ _ _ (fun x => rfl)
  have hlenS := length_updateFirst (fun t : Sale => t.id == said)
    (fun t => { t with
      paid_amount := t.paid_amount + req.payment_amount,
      payment_status := derive_status
        (t.paid_amount + req.payment_amount) t.total_amount
        t.due_date now,
      updated_at := now }) st.sales
  have hlenC := length_updateFirst (fun c : Customer => c.id == req.customer_id)
    (fun c => { c with
      current_balance := c.current_balance - req.payment_amount,
      updated_at := now }) st.customers
  refine ⟨⟨hPid, ?_, hSid, hUid, ?_, hMov, ?_, hPS⟩, hStock, hXor, ⟨hPaid.1, ?_⟩, ?_, hBal.2⟩
  -- custIds
  · dsimp only
    rw [hmapC, hlenC]
    exact hCid
  -- saleIds
  · dsimp only
    rw [hmapS, hlenS]
    exact hLid
  -- saleCust
  · intro s hs
    dsimp only at hs ⊢
    rw [hmapC]
    rcases mem_updateFirst hs with hs | ⟨y, hy, rfl⟩
    · exact hSC s hs
    · exact hSC y hy
  -- paid bounds on sales
  · intro t ht
    dsimp only at ht
    rw [hupdS] at ht
    rcases List.mem_append.mp ht with ht | ht
    · exact hPaid.2 t (hsplitS ▸ List.mem_append_left _ ht)
    · rcases List.mem_cons.mp ht with rfl | ht
      · refine ⟨?_, ?_⟩
        · show (0 : Rat) ≤ sa.paid_amount + req.payment_amount
          have := (hPaid.2 sa hsa_mem).1
          linarith
        · show sa.paid_amount + req.payment_amount ≤ sa.total_amount
          exact hover
      · exact hPaid.2 t
          (hsplitS ▸ List.mem_append_right _ (List.mem_cons_of_mem _ ht))
  -- customer balances
  · intro c hc
    dsimp only at hc ⊢
    rw [hupdC] at hc
    unfold customerOutstanding
    dsimp only
    rw [hupdS, sum_filter_middle]
    dsimp only
    have hmainC : ∀ d : Customer, d ∈ st.customers → ¬ d.id = req.customer_id →
        d.current_balance =
          ((m₁.filter (fun s => s.customer_id == d.id)).map
            (fun s => s.total_amount - s.paid_amount)).sum +
          (if sa.customer_id == d.id then sa.total_amount - sa.paid_amount else 0) +
          ((m₂.filter (fun s => s.customer_id == d.id)).map
            (fun s => s.total_amount - s.paid_amount)).sum := by
      intro d hd _
      have := hBal.1 d hd
      unfold customerOutstanding at this
      rw [hsplitS, sum_filter_middle] at this
      exact this
    rcases List.mem_append.mp hc with hc | hc
    · have hne : ¬ c.id = req.customer_id := by
        have := hc₁ c hc
        simpa [beq_iff_eq] using this
      have hqf : (sa.customer_id == c.id) = false := by
        simp only [beq_eq_false_iff_ne, ne_eq, hcust]
        intro hcontra
        exact hne hcontra.symm
      have hold := hmainC c (hsplitC ▸ List.mem_append_left _ hc) hne
      rw [hqf] at hold
      rw [hqf]
      simpa using hold
    · rcases List.mem_cons.mp hc with rfl | hc
      · -- the paying customer
        have hqt : (sa.customer_id == yc.id) = true := by
          rw [beq_iff_eq, hcust, hyc_id]
        have hold := hBal.1 yc (hsplitC ▸
          List.mem_append_right _ (List.mem_cons_self yc c₂))
        unfold customerOutstanding at hold
        rw [hsplitS, sum_filter_middle, hqt] at hold
        simp only [if_true] at hold
        dsimp only
        rw [hqt]
        simp only [if_true]
        rw [hold]
        ring
      · have hne : ¬ c.id = req.customer_id := by
          have := hsplitNdC.2 c hc
          rw [hyc_id] at this
          exact this
        have hqf : (sa.customer_id == c.id) = false := by
          simp only [beq_eq_false_iff_ne, ne_eq, hcust]
          intro hcontra
          exact hne hcontra.symm
        have hold := hmainC c (hsplitC ▸
          List.mem_append_right _ (List.mem_cons_of_mem _ hc)) hne
        rw [hqf] at hold
        rw [hqf]
        simpa using hold

/-- Recording a payable payment preserves the full invariant, mirroring the
receivable case on the supplier/purchase side. -/
theorem inv_create_payable_payment {st st' : LedgerState}
    {req : PayablePaymentCreate} {now : Int}
    (h : create_payable_payment st req now = .ok st') (hI : Inv st) :
    Inv st' := by
  unfold create_payable_payment at h
  split at h
  · exact Except.noConfusion h
  rename_i hamt0
  split at h
  · exact Except.noConfusion h
  rename_i hdup
  split at h
  · exact Except.noConfusion h
  rename_i puid hsid
  split at h
  · exact Except.noConfusion h
  rename_i pu hfindP
  split at h
  · exact Except.noConfusion h
  rename_i hsupp0
  split at h
  · exact Except.noConfusion h
  rename_i hanyS0
  split at h
  · exact Except.noConfusion h
  rename_i hover0
  injection h with h
  subst h
  obtain ⟨⟨hPid, hCid, hSid, hUid, hLid, hMov, hSC, hPS⟩, hStock, hXor, hPaid, hBal⟩ := hI
  have hamt : 0 < req.payment_amount := not_not.mp hamt0
  have hsupp : pu.supplier_id = req.supplier_id := not_not.mp hsupp0
  have hanyS : st.suppliers.any (fun s => s.id == req.supplier_id) = true :=
    not_not.mp hanyS0
  have hover : pu.paid_amount + req.payment_amount ≤ pu.total_amount :=
    not_lt.mp hover0
  have hpu_mem : pu ∈ st.purchases := List.mem_of_find?_eq_some hfindP
  have hpu_id : pu.id = puid := by
    have := List.find?_some hfindP
    rwa [beq_iff_eq] at this
  rcases updateFirst_cases (fun q => q.id == puid)
      (fun q => { q with
        paid_amount := q.paid_amount + req.payment_amount,
        payment_status := derive_status
          (q.paid_amount + req.payment_amount) q.total_amount
          q.due_date now,
        updated_at := now }) st.purchases with
    ⟨hnoneP, _⟩ | ⟨m₁, yp, m₂, hsplitP, hm₁, hyp2, hfindP2, hupdP⟩
  · rw [hfindP] at hnoneP
    exact Option.noConfusion hnoneP
  have hypu : pu = yp := by
    rw [hfindP] at hfindP2
    injection hfindP2 with hfindP2
  subst hypu
  rcases updateFirst_cases (fun s => s.id == req.supplier_id)
      (fun s => { s with
        current_balance := s.current_balance - req.payment_amount,
        updated_at := now }) st.suppliers with
    ⟨hnoneS, _⟩ | ⟨c₁, ys, c₂, hsplitS, hc₁, hys, hfindS, hupdS⟩
  · have := List.find?_eq_none.mp hnoneS
    rcases List.any_eq_true.mp hanyS with ⟨s, hsm, hsp⟩
    exact absurd hsp (by simp [this s hsm])
  have hys_id : ys.id = req.supplier_id := by
    have := hys
    rwa [beq_iff_eq] at this
  have hNdP : (st.purchases.map Purchase.id).Nodup := by
    rw [hUid]; exact idSeq_nodup _
  have hNdS : (st.suppliers.map Supplier.id).Nodup := by
    rw [hSid]; exact idSeq_nodup _
  have hsplitNdP := key_split_of_nodup (f := Purchase.id) (hsplitP ▸ hNdP)
  have hsplitNdS := key_split_of_nodup (f := Supplier.id) (hsplitS ▸ hNdS)
  have hmapP : (updateFirst (fun q => q.id == puid)
      (fun q => { q with
        paid_amount := q.paid_amount + req.payment_amount,
        payment_status := derive_status
          (q.paid_amount + req.payment_amount) q.total_amount
          q.due_date now,
        updated_at := now }) st.purchases).map Purchase.id =
      st.purchases.map Purchase.id :=
    map_updateFirst _ _ _ _ (fun x => rfl)
  have hmapS : (updateFirst (fun s => s.id == req.supplier_id)
      (fun s => { s with
        current_balance := s.current_balance - req.payment_amount,
        updated_at := now }) st.suppliers).map Supplier.id =
      st.suppliers.map Supplier.id :=
    map_updateFirst _ _ _ _ (fun x => rfl)
  have hlenP := length_updateFirst (fun q : Purchase => q.id == puid)
    (fun q => { q with
      paid_amount := q.paid_amount + req.payment_amount,
      payment_status := derive_status
        (q.paid_amount + req.payment_amount) q.total_amount
        q.due_date now,
      updated_at := now }) st.purchases
  have hlenS := length_updateFirst (fun s : Supplier => s.id == req.supplier_id)
    (fun s => { s with
      current_balance := s.current_balance - req.payment_amount,
      updated_at := now }) st.suppliers
  refine ⟨⟨hPid, hCid, ?_, ?_, hLid, hMov, hSC, ?_⟩, hStock, hXor, ⟨?_, hPaid.2⟩, hBal.1, ?_⟩
  -- suppIds
  · dsimp only
    rw [hmapS, hlenS]
    exact hSid
  -- purchIds
  · dsimp only
    rw [hmapP, hlenP]
    exact hUid
  -- purchSupp
  · intro p hp
    dsimp only at hp ⊢
    rw [hmapS]
    rcases mem_updateFirst hp with hp | ⟨y, hy, rfl⟩
    · exact hPS p hp
    · exact hPS y hy
  -- paid bounds on purchases
  · intro q hq
    dsimp only at hq
    rw [hupdP] at hq
    rcases List.mem_append.mp hq with hq | hq
    · exact hPaid.1 q (hsplitP ▸ List.mem_append_left _ hq)
    · rcases List.mem_cons.mp hq with rfl | hq
      · refine ⟨?_, ?_⟩
        · show (0 : Rat) ≤ pu.paid_amount + req.payment_amount
          have := (hPaid.1 pu hpu_mem).1
          linarith
        · show pu.paid_amount + req.payment_amount ≤ pu.total_amount
          exact hover
      · exact hPaid.1 q
          (hsplitP ▸ List.mem_append_right _ (List.mem_cons_of_mem _ hq))
  -- supplier balances
  · intro s hs
    dsimp only at hs ⊢
    rw [hupdS] at hs
    unfold supplierOutstanding
    dsimp only
    rw [hupdP, sum_filter_middle]
    dsimp only
    have hmainS : ∀ d : Supplier, d ∈ st.suppliers → ¬ d.id = req.supplier_id →
        d.current_balance =
          ((m₁.filter (fun p => p.supplier_id == d.id)).map
            (fun p => p.total_amount - p.paid_amount)).sum +
          (if pu.supplier_id == d.id then pu.total_amount - pu.paid_amount else 0) +
          ((m₂.filter (fun p => p.supplier_id == d.id)).map
            (fun p => p.total_amount - p.paid_amount)).sum := by
      intro d hd _
      have := hBal.2 d hd
      unfold supplierOutstanding at this
      rw [hsplitP, sum_filter_middle] at this
      exact this
    rcases List.mem_append.mp hs with hs | hs
    · have hne : ¬ s.id = req.supplier_id := by
        have := hc₁ s hs
        simpa [beq_iff_eq] using this
      have hqf : (pu.supplier_id == s.id) = false := by
        simp only [beq_eq_false_iff_ne, ne_eq, hsupp]
        intro hcontra
        exact hne hcontra.symm
      have hold := hmainS s (hsplitS ▸ List.mem_append_left _ hs) hne
      rw [hqf] at hold
      rw [hqf]
      simpa using hold
    · rcases List.mem_cons.mp hs with rfl | hs
      · have hqt : (pu.supplier_id == ys.id) = true := by
          rw [beq_iff_eq, hsupp, hys_id]
        have hold := hBal.2 ys (hsplitS ▸
          List.mem_append_right _ (List.mem_cons_self ys c₂))
        unfold supplierOutstanding at hold
        rw [hsplitP, sum_filter_middle, hqt] at hold
        simp only [if_true] at hold
        dsimp only
        rw [hqt]
        simp only [if_true]
        rw [hold]
        ring
      · have hne : ¬ s.id = req.supplier_id := by
          have := hsplitNdS.2 s hs
          rw [hys_id] at this
          exact this
        have hqf : (pu.supplier_id == s.id) = false := by
          simp only [beq_eq_false_iff_ne, ne_eq, hsupp]
          intro hcontra
          exact hne hcontra.symm
        have hold := hmainS s (hsplitS ▸
          List.mem_append_right _ (List.mem_cons_of_mem _ hs)) hne
        rw [hqf] at hold
        rw [hqf]
        simpa using hold

/-- Creating a purchase preserves the full invariant: the invoice row is
appended with paid_amount 0, each line item adds a movement through the Stock
Ledger, and the supplier's balance grows by exactly total_amount. -/
theorem inv_create_purchase {st st' : LedgerState} {req : PurchaseCreate}
    {subtotal total_amount : Rat} {now : Int}
    (h : create_purchase st req subtotal total_amount now = .ok st')
    (hI : Inv st) : Inv st' := by
  unfold create_purchase at h
  split at h
  · exact Except.noConfusion h
  rename_i htot0
  split at h
  · exact Except.noConfusion h
  rename_i hall0
  split at h
  · exact Except.noConfusion h
  rename_i hsub0
  split at h
  · exact Except.noConfusion h
  rename_i hnn0
  split at h
  · exact Except.noConfusion h
  rename_i hdup
  split at h
  · exact Except.noConfusion h
  rename_i hanyS0
  split at h
  · exact Except.noConfusion h
  rename_i hprod0
  split at h
  · exact Except.noConfusion h
  rename_i st2 hfold
  injection h with h
  subst h
  obtain ⟨⟨hPid, hCid, hSid, hUid, hLid, hMov, hSC, hPS⟩, hStock, hXor, hPaid, hBal⟩ := hI
  have hnn : 0 ≤ req.tax_amount ∧ 0 ≤ req.discount_amount ∧
      0 ≤ subtotal ∧ 0 ≤ total_amount := not_not.mp hnn0
  have hanyS : st.suppliers.any (fun s => s.id == req.supplier_id) = true :=
    not_not.mp hanyS0
  have hall := List.all_eq_true.mp (not_not.mp hall0)
  have hq : ∀ it ∈ req.items, 0 ≤ it.quantity := by
    intro it hit
    have := hall it hit
    simp [purchaseItemOk] at this
    exact le_of_lt this.1.1.1
  have hCore : StockCore (purchaseStage st req subtotal total_amount now) :=
    ⟨hPid, hMov, hStock, hXor⟩
  have hFold := purchaseMovements_preserves req.items _ _ hq hfold hCore
  obtain ⟨⟨hPid2, hMov2, hStock2, hXor2⟩, ⟨hfC, hfS, hfP, hfL, hfPI, hfSI, hfPP, hfRP⟩, hfLen⟩ := hFold
  have hsidMem : req.supplier_id ∈ st.suppliers.map Supplier.id := by
    rcases List.any_eq_true.mp hanyS with ⟨s, hsm, hsp⟩
    rw [beq_iff_eq] at hsp
    exact hsp ▸ List.mem_map_of_mem Supplier.id hsm
  have hmapSup : (updateFirst (fun s => s.id == req.supplier_id)
      (fun s => { s with
        current_balance := s.current_balance + total_amount,
        updated_at := now }) st2.suppliers).map Supplier.id =
      st2.suppliers.map Supplier.id :=
    map_updateFirst _ _ _ _ (fun x => rfl)
  have hlenSup := length_updateFirst
    (fun s : Supplier => s.id == req.supplier_id)
    (fun s => { s with
      current_balance := s.current_balance + total_amount,
      updated_at := now }) st2.suppliers
  have hSup2 : st2.suppliers = st.suppliers := hfS
  have hPur2 : st2.purchases =
      st.purchases ++ [purchaseRow st req subtotal total_amount now] := hfP
  refine ⟨⟨hPid2, ?_, ?_, ?_, ?_, hMov2, ?_, ?_⟩, hStock2, hXor2, ⟨?_, ?_⟩, ?_, ?_⟩
  -- custIds
  · show st2.customers.map Customer.id = idSeq st2.customers.length
    rw [hfC]
    exact hCid
  -- suppIds
  · dsimp only [adjust_supplier_balance]
    rw [hmapSup, hlenSup, hSup2]
    exact hSid
  -- purchIds
  · show st2.purchases.map Purchase.id = idSeq st2.purchases.length
    rw [hPur2, List.map_append, List.length_append, hUid]
    simp [idSeq_succ, purchaseRow]
  -- saleIds
  · show st2.sales.map Sale.id = idSeq st2.sales.length
    rw [hfL]
    exact hLid
  -- saleCust
  · intro s hs
    show s.customer_id ∈ st2.customers.map Customer.id
    rw [hfC]
    have hs2 : s ∈ st2.sales := hs
    rw [hfL] at hs2
    exact hSC s hs2
  -- purchSupp
  · intro p hp
    dsimp only [adjust_supplier_balance]
    rw [hmapSup, hSup2]
    have hp2 : p ∈ st2.purchases := hp
    rw [hPur2] at hp2
    rcases List.mem_append.mp hp2 with hp2 | hp2
    · exact hPS p hp2
    · rcases List.mem_singleton.mp hp2 with rfl
      show (purchaseRow st req subtotal total_amount now).supplier_id ∈ _
      exact hsidMem
  -- paid bounds on purchases
  · intro q hq2
    have hq3 : q ∈ st2.purchases := hq2
    rw [hPur2] at hq3
    rcases List.mem_append.mp hq3 with hq3 | hq3
    · exact hPaid.1 q hq3
    · rcases List.mem_singleton.mp hq3 with rfl
      exact ⟨le_refl 0, hnn.2.2.2⟩
  -- (new purchase row: paid_amount 0 within [0, total_amount])
  -- paid bounds on sales
  · intro t ht
    have ht2 : t ∈ st2.sales := ht
    rw [hfL] at ht2
    exact hPaid.2 t ht2
  -- customer balances
  · intro c hc
    have hc2 : c ∈ st2.customers := hc
    rw [hfC] at hc2
    show c.current_balance = _
    unfold customerOutstanding
    have hsales : (adjust_supplier_balance st2 req.supplier_id total_amount
        now).sales = st.sales := hfL
    rw [hsales]
    exact hBal.1 c hc2
  -- supplier balances
  · intro s hs
    dsimp only [adjust_supplier_balance] at hs ⊢
    rw [hSup2] at hs
    unfold supplierOutstanding
    dsimp only
    rw [hPur2]
    rcases updateFirst_cases (fun s : Supplier => s.id == req.supplier_id)
        (fun s => { s with
          current_balance := s.current_balance + total_amount,
          updated_at := now }) st.suppliers with
      ⟨hnoneS, hupd⟩ | ⟨c₁, ysup, c₂, hsplitSup, hc₁, hysup, hfindSup, hupd⟩
    · have := List.find?_eq_none.mp hnoneS
      rcases List.any_eq_true.mp hanyS with ⟨z, hzm, hzp⟩
      exact absurd hzp (by simp [this z hzm])
    rw [hupd] at hs
    have hysup_id : ysup.id = req.supplier_id := by
      have := hysup
      rwa [beq_iff_eq] at this
    have hNdSup : (st.suppliers.map Supplier.id).Nodup := by
      rw [hSid]; exact idSeq_nodup _
    have hsplitNdSup := key_split_of_nodup (f := Supplier.id) (hsplitSup ▸ hNdSup)
    have hmain : ∀ d : Supplier, d ∈ st.suppliers → ¬ d.id = req.supplier_id →
        d.current_balance =
          (((st.purchases ++
            [purchaseRow st req subtotal total_amount now]).filter
                 (fun p => p.supplier_id == d.id)).map
                   (fun p => p.total_amount - p.paid_amount)).sum := by
      intro d hd hne
      rw [sum_filter_snoc]
      have hqf : (req.supplier_id == d.id) = false := by
        simp only [beq_eq_false_iff_ne, ne_eq]
        intro hcontra
        exact hne hcontra.symm
      dsimp only [purchaseRow]
      rw [hqf]
      have := hBal.2 d hd
      unfold supplierOutstanding at this
      simpa using this
    rcases List.mem_append.mp hs with hs | hs
    · have hne : ¬ s.id = req.supplier_id := by
        have := hc₁ s hs
        simpa [beq_iff_eq] using this
      exact hmain s (hsplitSup ▸ List.mem_append_left _ hs) hne
    · rcases List.mem_cons.mp hs with rfl | hs
      · rw [sum_filter_snoc]
        dsimp only [purchaseRow]
        have hqt : (req.supplier_id == ysup.id) = true := by
          rw [beq_iff_eq, hysup_id]
        rw [hqt]
        simp only [if_true]
        have hold := hBal.2 ysup (hsplitSup ▸
          List.mem_append_right _ (List.mem_cons_self ysup c₂))
        unfold supplierOutstanding at hold
        rw [hold]
        ring
      · have hne : ¬ s.id = req.supplier_id := by
          have := hsplitNdSup.2 s hs
          rw [hysup_id] at this
          exact this
        exact hmain s (hsplitSup ▸
          List.mem_append_right _ (List.mem_cons_of_mem _ hs)) hne

/-- Creating a sale preserves the full invariant: the invoice row is appended
with paid_amount 0, each line item debits stock through the Stock Ledger
(whose guard keeps stock non-negative), and the customer's balance grows by
exactly total_amount. -/
theorem inv_create_sale {st st' : LedgerState} {req : SaleCreate}
    {subtotal total_amount : Rat} {now : Int}
    (h : create_sale st req subtotal total_amount now = .ok st')
    (hI : Inv st) : Inv st' := by
  unfold create_sale at h
  split at h
  · exact Except.noConfusion h
  rename_i htot0
  split at h
  · exact Except.noConfusion h
  rename_i hall0
  split at h
  · exact Except.noConfusion h
  rename_i hsub0
  split at h
  · exact Except.noConfusion h
  rename_i hnn0
  split at h
  · exact Except.noConfusion h
  rename_i hdup
  split at h
  · exact Except.noConfusion h
  rename_i hanyC0
  split at h
  · exact Except.noConfusion h
  rename_i hprod0
  split at h
  · exact Except.noConfusion h
  rename_i hinsuf
  split at h
  · exact Except.noConfusion h
  rename_i st2 hfold
  injection h with h
  subst h
  obtain ⟨⟨hPid, hCid, hSid, hUid, hLid, hMov, hSC, hPS⟩, hStock, hXor, hPaid, hBal⟩ := hI
  have hnn : 0 ≤ req.tax_amount ∧ 0 ≤ req.discount_amount ∧
      0 ≤ subtotal ∧ 0 ≤ total_amount := not_not.mp hnn0
  have hanyC : st.customers.any (fun c => c.id == req.customer_id) = true :=
    not_not.mp hanyC0
  have hCore : StockCore (saleStage st req subtotal total_amount now) :=
    ⟨hPid, hMov, hStock, hXor⟩
  have hFold := saleMovements_preserves req.items _ _ hfold hCore
  obtain ⟨⟨hPid2, hMov2, hStock2, hXor2⟩, ⟨hfC, hfS, hfP, hfL, hfPI, hfSI, hfPP, hfRP⟩, hfLen⟩ := hFold
  have hcidMem : req.customer_id ∈ st.customers.map Customer.id := by
    rcases List.any_eq_true.mp hanyC with ⟨c, hcm, hcp⟩
    rw [beq_iff_eq] at hcp
    exact hcp ▸ List.mem_map_of_mem Customer.id hcm
  have hmapCust : (updateFirst (fun c => c.id == req.customer_id)
      (fun c => { c with
        current_balance := c.current_balance + total_amount,
        updated_at := now }) st2.customers).map Customer.id =
      st2.customers.map Customer.id :=
    map_updateFirst _ _ _ _ (fun x => rfl)
  have hlenCust := length_updateFirst
    (fun c : Customer => c.id == req.customer_id)
    (fun c => { c with
      current_balance := c.current_balance + total_amount,
      updated_at := now }) st2.customers
  have hCust2 : st2.customers = st.customers := hfC
  have hSal2 : st2.sales =
      st.sales ++ [saleRow st req subtotal total_amount now] := hfL
  refine ⟨⟨hPid2, ?_, ?_, ?_, ?_, hMov2, ?_, ?_⟩, hStock2, hXor2, ⟨?_, ?_⟩, ?_, ?_⟩
  -- custIds
  · dsimp only [adjust_customer_balance]
    rw [hmapCust, hlenCust, hCust2]
    exact hCid
  -- suppIds
  · show st2.suppliers.map Supplier.id = idSeq st2.suppliers.length
    rw [hfS]
    exact hSid
  -- purchIds
  · show st2.purchases.map Purchase.id = idSeq st2.purchases.length
    rw [hfP]
    exact hUid
  -- saleIds
  · show st2.sales.map Sale.id = idSeq st2.sales.length
    rw [hSal2, List.map_append, List.length_append, hLid]
    simp [idSeq_succ, saleRow]
  -- saleCust
  · intro s hs
    dsimp only [adjust_customer_balance] at hs ⊢
    rw [hmapCust, hCust2]
    have hs2 : s ∈ st2.sales := hs
    rw [hSal2] at hs2
    rcases List.mem_append.mp hs2 with hs2 | hs2
    · exact hSC s hs2
    · rcases List.mem_singleton.mp hs2 with rfl
      show (saleRow st req subtotal total_amount now).customer_id ∈ _
      exact hcidMem
  -- purchSupp
  · intro p hp
    show p.supplier_id ∈ st2.suppliers.map Supplier.id
    rw [hfS]
    have hp2 : p ∈ st2.purchases := hp
    rw [hfP] at hp2
    exact hPS p hp2
  -- paid bounds on purchases
  · intro q hq2
    have hq3 : q ∈ st2.purchases := hq2
    rw [hfP] at hq3
    exact hPaid.1 q hq3
  -- paid bounds on sales
  · intro t ht
    have ht2 : t ∈ st2.sales := ht
    rw [hSal2] at ht2
    rcases List.mem_append.mp ht2 with ht2 | ht2
    · exact hPaid.2 t ht2
    · rcases List.mem_singleton.mp ht2 with rfl
      exact ⟨le_refl 0, hnn.2.2.2⟩
  -- customer balances
  · intro c hc
    dsimp only [adjust_customer_balance] at hc ⊢
    rw [hCust2] at hc
    unfold customerOutstanding
    dsimp only
    rw [hSal2]
    rcases updateFirst_cases (fun c : Customer => c.id == req.customer_id)
        (fun c => { c with
          current_balance := c.current_balance + total_amount,
          updated_at := now }) st.customers with
      ⟨hnoneC, hupd⟩ | ⟨c₁, ycst, c₂, hsplitC, hc₁, hycst, hfindC, hupd⟩
    · have := List.find?_eq_none.mp hnoneC
      rcases List.any_eq_true.mp hanyC with ⟨z, hzm, hzp⟩
      exact absurd hzp (by simp [this z hzm])
    rw [hupd] at hc
    have hycst_id : ycst.id = req.customer_id := by
      have := hycst
      rwa [beq_iff_eq] at this
    have hNdC : (st.customers.map Customer.id).Nodup := by
      rw [hCid]; exact idSeq_nodup _
    have hsplitNdC := key_split_of_nodup (f := Customer.id) (hsplitC ▸ hNdC)
    have hmain : ∀ d : Customer, d ∈ st.customers → ¬ d.id = req.customer_id →
        d.current_balance =
          (((st.sales ++
            [saleRow st req subtotal total_amount now]).filter
                 (fun s => s.customer_id == d.id)).map
                   (fun s => s.total_amount - s.paid_amount)).sum := by
      intro d hd hne
      rw [sum_filter_snoc]
      have hqf : (req.customer_id == d.id) = false := by
        simp only [beq_eq_false_iff_ne, ne_eq]
        intro hcontra
        exact hne hcontra.symm
      dsimp only [saleRow]
      rw [hqf]
      have := hBal.1 d hd
      unfold customerOutstanding at this
      simpa using this
    rcases List.mem_append.mp hc with hc | hc
    · have hne : ¬ c.id = req.customer_id := by
        have := hc₁ c hc
        simpa [beq_iff_eq] using this
      exact hmain c (hsplitC ▸ List.mem_append_left _ hc) hne
    · rcases List.mem_cons.mp hc with rfl | hc
      · rw [sum_filter_snoc]
        dsimp only [saleRow]
        have hqt : (req.customer_id == ycst.id) = true := by
          rw [beq_iff_eq, hycst_id]
        rw [hqt]
        simp only [if_true]
        have hold := hBal.1 ycst (hsplitC ▸
          List.mem_append_right _ (List.mem_cons_self ycst c₂))
        unfold customerOutstanding at hold
        rw [hold]
        ring
      · have hne : ¬ c.id = req.customer_id := by
          have := hsplitNdC.2 c hc
          rw [hycst_id] at this
          exact this
        exact hmain c (hsplitC ▸
          List.mem_append_right _ (List.mem_cons_of_mem _ hc)) hne
  -- supplier balances
  · intro s hs
    have hs2 : s ∈ st2.suppliers := hs
    rw [hfS] at hs2
    show s.current_balance = _
    unfold supplierOutstanding
    have hpur : (adjust_customer_balance st2 req.customer_id total_amount
        now).purchases = st.purchases := hfP
    rw [hpur]
    exact hBal.2 s hs2

/-- The empty store satisfies the full invariant. -/
theorem inv_init : Inv initState :=
  ⟨⟨rfl, rfl, rfl, rfl, rfl,
    fun m hm => absurd hm (List.not_mem_nil m),
    fun s hs => absurd hs (List.not_mem_nil s),
    fun p hp => absurd hp (List.not_mem_nil p)⟩,
   fun p hp => absurd hp (List.not_mem_nil p),
   fun m hm => absurd hm (List.not_mem_nil m),
   ⟨fun q hq => absurd hq (List.not_mem_nil q),
    fun t ht => absurd ht (List.not_mem_nil t)⟩,
   ⟨fun c hc => absurd hc (List.not_mem_nil c),
    fun s hs => absurd hs (List.not_mem_nil s)⟩⟩

/-- Every successful operation preserves the full invariant. -/
theorem inv_runOp {st st' : LedgerState} {op : Op}
    (h : runOp st op = .ok st') (hI : Inv st) : Inv st' := by
  cases op with
  | createProduct req now => exact inv_create_product h hI
  | updateProduct pid u now => exact inv_update_product h hI
  | createCustomer req now => exact inv_create_customer h hI
  | createSupplier req now => exact inv_create_supplier h hI
  | createPurchase req subtotal total_amount now => exact inv_create_purchase h hI
  | createSale req subtotal total_amount now => exact inv_create_sale h hI
  | payPayable req now => exact inv_create_payable_payment h hI
  | payReceivable req now => exact inv_create_receivable_payment h hI

/-- The all-or-nothing unit of work preserves the full invariant: a failing
call leaves the prior state. -/
theorem inv_applyOp {st : LedgerState} (op : Op) (hI : Inv st) :
    Inv (applyOp st op) := by
  unfold applyOp
  split
  next st1 heq => exact inv_runOp heq hI
  next e heq => exact hI

/-- Every reachable ledger state satisfies the full invariant. -/
theorem inv_reachable {st : LedgerState} (h : Reachable st) : Inv st := by
  induction h with
  | init => exact inv_init
  | step st op hr ih => exact inv_applyOp op ih

/-- The sample operation chain reaches stW. -/
theorem reachable_stW : Reachable stW :=
  Reachable.step _ _ (Reachable.step _ _ (Reachable.step _ _
    (Reachable.step _ _ (Reachable.step _ _ (Reachable.step _ _
      (Reachable.step _ _ Reachable.init))))))

/-- When the stock pre-check returns none, every line item's product can cover
the aggregate requested quantity. -/
theorem firstInsufficient_none_sound (st : LedgerState)
    (items : List SaleItemCreate) :
    ∀ sub, firstInsufficient st items sub = none →
    ∀ it ∈ sub, ∀ p, st.products.find? (fun q => q.id == it.product_id) = some p →
      ¬ p.stock_quantity < totalRequested items it.product_id := by
  intro sub
  induction sub with
  | nil =>
    intro _ it hit
    exact absurd hit (List.not_mem_nil it)
  | cons x xs ih =>
    intro hnone it hit p hfind
    unfold firstInsufficient at hnone
    split at hnone
    · exact Option.noConfusion hnone
    next px hfx =>
      split at hnone
      · exact Option.noConfusion hnone
      next hlt =>
        rcases List.mem_cons.mp hit with rfl | hit
        · rw [hfx] at hfind
          injection hfind with hfind
          subst hfind
          exact hlt
        · exact ih hnone it hit p hfind

/-- C2: a sale request that passes header arithmetic, line-item validation and
reference checks but asks for more of some product than its current stock
fails with insufficientStockError, and the all-or-nothing unit of work leaves
the state unchanged: no movement is created, stock_quantity keeps its prior
value, and no party balance is mutated. -/
theorem C2_insufficient_stock_rejected {st : LedgerState} {req : SaleCreate}
    {subtotal total_amount : Rat} {now : Int}
    (htot : total_amount = subtotal + req.tax_amount - req.discount_amount)
    (hall : req.items.all saleItemOk = true)
    (hsub : subtotal = (req.items.map saleItemTotal).sum)
    (hnn : 0 ≤ req.tax_amount ∧ 0 ≤ req.discount_amount ∧
      0 ≤ subtotal ∧ 0 ≤ total_amount)
    (hdup : st.sales.any (fun s => s.invoice_number == req.invoice_number) = false)
    (hcust : st.customers.any (fun c => c.id == req.customer_id) = true)
    (hprod : req.items.all
      (fun it => st.products.any (fun p => p.id == it.product_id)) = true)
    (hover : ∃ it ∈ req.items, ∃ p,
      st.products.find? (fun q => q.id == it.product_id) = some p ∧
      p.stock_quantity < totalRequested req.items it.product_id) :
    (∃ pid, create_sale st req subtotal total_amount now =
      .error (.insufficientStockError pid)) ∧
    applyOp st (Op.createSale req subtotal total_amount now) = st := by
  have hne : ¬ firstInsufficient st req.items req.items = none := by
    intro hnone
    rcases hover with ⟨it, hit, p, hfind, hlt⟩
    exact firstInsufficient_none_sound st req.items req.items hnone
      it hit p hfind hlt
  rcases hfi : firstInsufficient st req.items req.items with _ | pid
  · exact absurd hfi hne
  have hres : create_sale st req subtotal total_amount now =
      .error (.insufficientStockError pid) := by
    unfold create_sale
    rw [if_neg (not_not_intro htot), if_neg (not_not_intro hall),
      if_neg (not_not_intro hsub), if_neg (not_not_intro hnn),
      if_neg (by simp [hdup]), if_neg (not_not_intro hcust),
      if_neg (not_not_intro hprod), hfi]
  refine ⟨⟨pid, hres⟩, ?_⟩
  simp only [applyOp, runOp, hres]

theorem C2_insufficient_stock_rejected_witness :
    (∃ pid, create_sale stC2 reqSaleBad 55 55 0 =
      .error (.insufficientStockError pid)) ∧
    applyOp stC2 (Op.createSale reqSaleBad 55 55 0) = stC2 :=
  C2_insufficient_stock_rejected
    (by norm_num [reqSaleBad])
    (by simp [reqSaleBad, saleItemOk, saleItemTotal])
    (by simp [reqSaleBad, saleItemTotal]; norm_num)
    (by norm_num [reqSaleBad])
    rfl
    rfl
    rfl
    ⟨⟨1, 11, 5, 0⟩, by simp [reqSaleBad], productW10, rfl,
      by norm_num [totalRequested, reqSaleBad, productW10]⟩

/-- C3: applying a payment whose amount would push paid_amount beyond
total_amount fails with overpaymentError, and the unit of work leaves the
state unchanged: the invoice's paid_amount and payment_status keep their
prior values and no balance moves. Stated for receivable (sale) and payable
(purchase) invoices. -/
theorem C3_overpayment_rejected :
    (∀ (st : LedgerState) (req : ReceivablePaymentCreate) (now said : Int)
      (sa : Sale),
      0 < req.payment_amount →
      st.receivable_payments.any
        (fun p => p.payment_number == req.payment_number) = false →
      req.sale_id = some said →
      st.sales.find? (fun s => s.id == said) = some sa →
      sa.customer_id = req.customer_id →
      st.customers.any (fun c => c.id == req.customer_id) = true →
      sa.total_amount < sa.paid_amount + req.payment_amount →
      create_receivable_payment st req now = .error .overpaymentError ∧
      applyOp st (Op.payReceivable req now) = st) ∧
    (∀ (st : LedgerState) (req : PayablePaymentCreate) (now puid : Int)
      (pu : Purchase),
      0 < req.payment_amount →
      st.payable_payments.any
        (fun p => p.payment_number == req.payment_number) = false →
      req.purchase_id = some puid →
      st.purchases.find? (fun p => p.id == puid) = some pu →
      pu.supplier_id = req.supplier_id →
      st.suppliers.any (fun s => s.id == req.supplier_id) = true →
      pu.total_amount < pu.paid_amount + req.payment_amount →
      create_payable_payment st req now = .error .overpaymentError ∧
      applyOp st (Op.payPayable req now) = st) := by
  constructor
  · intro st req now said sa hamt hdup hsid hfind hcust hany hover
    have hres : create_receivable_payment st req now =
        .error .overpaymentError := by
      simp [create_receivable_payment, hsid, hfind, hamt, hdup, hcust,
        hany, hover]
    exact ⟨hres, by simp only [applyOp, runOp, hres]⟩
  · intro st req now puid pu hamt hdup hsid hfind hsupp hany hover
    have hres : create_payable_payment st req now =
        .error .overpaymentError := by
      simp [create_payable_payment, hsid, hfind, hamt, hdup, hsupp,
        hany, hover]
    exact ⟨hres, by simp only [applyOp, runOp, hres]⟩

theorem C3_overpayment_rejected_witness :
    (create_receivable_payment stC3 reqRecvPayBad 0 =
      .error .overpaymentError ∧
      applyOp stC3 (Op.payReceivable reqRecvPayBad 0) = stC3) ∧
    (create_payable_payment stC3 reqPayPayBad 0 =
      .error .overpaymentError ∧
      applyOp stC3 (Op.payPayable reqPayPayBad 0) = stC3) :=
  ⟨C3_overpayment_rejected.1 stC3 reqRecvPayBad 0 1 saleW5030
    (by norm_num [reqRecvPayBad]) rfl rfl rfl rfl rfl
    (by norm_num [saleW5030, reqRecvPayBad]),
   C3_overpayment_rejected.2 stC3 reqPayPayBad 0 1 purchaseW5030
    (by norm_num [reqPayPayBad]) rfl rfl rfl rfl rfl
    (by norm_num [purchaseW5030, reqPayPayBad])⟩

/-- C7: a purchase or sale request whose header totals do not satisfy
total_amount = subtotal + tax_amount − discount_amount fails with
invalidTotalsError as the first validation step, before any mutation: the
unit of work returns the prior state untouched. -/
theorem C7_invalid_totals_rejected :
    (∀ (st : LedgerState) (req : PurchaseCreate) (subtotal total_amount : Rat)
      (now : Int),
      ¬ total_amount = subtotal + req.tax_amount - req.discount_amount →
      create_purchase st req subtotal total_amount now =
        .error .invalidTotalsError ∧
      applyOp st (Op.createPurchase req subtotal total_amount now) = st) ∧
    (∀ (st : LedgerState) (req : SaleCreate) (subtotal total_amount : Rat)
      (now : Int),
      ¬ total_amount = subtotal + req.tax_amount - req.discount_amount →
      create_sale st req subtotal total_amount now =
        .error .invalidTotalsError ∧
      applyOp st (Op.createSale req subtotal total_amount now) = st) := by
  constructor
  · intro st req subtotal total_amount now hbad
    have hres : create_purchase st req subtotal total_amount now =
        .error .invalidTotalsError := by
      unfold create_purchase
      rw [if_pos hbad]
    exact ⟨hres, by simp only [applyOp, runOp, hres]⟩
  · intro st req subtotal total_amount now hbad
    have hres : create_sale st req subtotal total_amount now =
        .error .invalidTotalsError := by
      unfold create_sale
      rw [if_pos hbad]
    exact ⟨hres, by simp only [applyOp, runOp, hres]⟩

theorem C7_invalid_totals_rejected_witness :
    (create_purchase initState reqPurchaseW 30 31 0 =
      .error .invalidTotalsError ∧
      applyOp initState (Op.createPurchase reqPurchaseW 30 31 0) = initState) ∧
    (create_sale initState reqSaleW 20 21 0 =
      .error .invalidTotalsError ∧
      applyOp initState (Op.createSale reqSaleW 20 21 0) = initState) :=
  ⟨C7_invalid_totals_rejected.1 initState reqPurchaseW 30 31 0
    (by norm_num [reqPurchaseW]),
   C7_invalid_totals_rejected.2 initState reqSaleW 20 21 0
    (by norm_num [reqSaleW])⟩

/-- C1: in every reachable state, every product's cached stock_quantity equals
the sum of (quantity_in − quantity_out) over that product's stock movements
taken in creation order, the value is never negative, and each movement's
balance_after is the strict running (prefix) sum over that creation order. -/
theorem C1_stock_rollup {st : LedgerState} (h : Reachable st) :
    stockInvariant st :=
  (inv_reachable h).stock

theorem C1_stock_rollup_witness : stockInvariant stW :=
  C1_stock_rollup reachable_stW

/-- C4: in every reachable state, every Purchase and Sale invoice satisfies
0 ≤ paid_amount ≤ total_amount. -/
theorem C4_paid_amount_bounds {st : LedgerState} (h : Reachable st) :
    paidBoundsInvariant st :=
  (inv_reachable h).paid

theorem C4_paid_amount_bounds_witness : paidBoundsInvariant stW :=
  C4_paid_amount_bounds reachable_stW

/-- C6: in every reachable state, every Customer's and Supplier's
current_balance equals the exact sum of (total_amount − paid_amount) over
that party's invoices (the schema has no voided state, so all stored
invoices count). -/
theorem C6_party_balance_rollup {st : LedgerState} (h : Reachable st) :
    balanceInvariant st :=
  (inv_reachable h).balance

theorem C6_party_balance_rollup_witness : balanceInvariant stW :=
  C6_party_balance_rollup reachable_stW

/-- C8: in every reachable state, every StockMovement has at most one of
quantity_in and quantity_out nonzero, and both are non-negative. -/
theorem C8_movement_in_xor_out {st : LedgerState} (h : Reachable st) :
    movementXorInvariant st :=
  (inv_reachable h).movXor

theorem C8_movement_in_xor_out_witness : movementXorInvariant stW :=
  C8_movement_in_xor_out reachable_stW

/-- C5, counterexample: at paid_amount = 0 and total_amount = 0 the derivation
returns PAID — the spec's own rule that PAID is terminal and OVERDUE never
overrides it forces the paid ≥ total case to win — so the frozen clause
"paid_amount == 0 gives PENDING" fails on a zero-total invoice. -/
theorem C5_zero_total_counterexample :
    derive_status 0 0 none 0 = PaymentStatus.PAID ∧
    ¬ derive_status 0 0 none 0 = PaymentStatus.PENDING := by
  constructor
  · unfold derive_status
    rw [if_pos (le_refl (0 : Rat))]
  · unfold derive_status
    rw [if_pos (le_refl (0 : Rat))]
    exact fun hc => PaymentStatus.noConfusion hc

/-- C5 (amended): payment_status derivation is a pure function of
(paid_amount, total_amount, due_date, now): when paid_amount < total_amount,
paid_amount = 0 gives PENDING and 0 < paid_amount gives PARTIAL, either
becoming OVERDUE when due_date < now; paid_amount ≥ total_amount always gives
PAID, with OVERDUE never overriding PAID; recomputing on the same inputs
yields the same result. -/
theorem C5_status_derivation (paid total : Rat) (due : Option Int) (now : Int) :
    (total ≤ paid → derive_status paid total due now = PaymentStatus.PAID) ∧
    (paid = 0 → paid < total → dueBefore due now = true →
      derive_status paid total due now = PaymentStatus.OVERDUE) ∧
    (paid = 0 → paid < total → dueBefore due now = false →
      derive_status paid total due now = PaymentStatus.PENDING) ∧
    (0 < paid → paid < total → dueBefore due now = true →
      derive_status paid total due now = PaymentStatus.OVERDUE) ∧
    (0 < paid → paid < total → dueBefore due now = false →
      derive_status paid total due now = PaymentStatus.PARTIAL) ∧
    derive_status paid total due now = derive_status paid total due now := by
  refine ⟨?_, ?_, ?_, ?_, ?_, rfl⟩
  · intro hle
    unfold derive_status
    rw [if_pos hle]
  · intro h0 hlt hdue
    unfold derive_status
    rw [if_neg (not_le.mpr hlt), if_pos hdue]
  · intro h0 hlt hdue
    unfold derive_status
    rw [if_neg (not_le.mpr hlt), if_neg (by simp [hdue]), if_pos h0]
  · intro hp hlt hdue
    unfold derive_status
    rw [if_neg (not_le.mpr hlt), if_pos hdue]
  · intro hp hlt hdue
    unfold derive_status
    rw [if_neg (not_le.mpr hlt), if_neg (by simp [hdue]),
      if_neg (ne_of_gt hp)]

theorem C5_status_derivation_witness :
    derive_status 0 50 (some (-1)) 0 = PaymentStatus.OVERDUE ∧
    derive_status 30 50 none 0 = PaymentStatus.PARTIAL ∧
    derive_status 50 50 (some (-1)) 0 = PaymentStatus.PAID :=
  ⟨(C5_status_derivation 0 50 (some (-1)) 0).2.1 rfl (by norm_num) rfl,
   (C5_status_derivation 30 50 none 0).2.2.2.2.1 (by norm_num) (by norm_num) rfl,
   (C5_status_derivation 50 50 (some (-1)) 0).1 (le_refl _)⟩

/-- C9: a Product row created from a ProductCreate request is exactly
mkProduct, whose stock_quantity is 0 and is_active is true — the creation DTO
has no field for either, so every new product starts inactive-stock at zero
with the schema defaults. -/
theorem C9_new_product_defaults {st st' : LedgerState} {req : ProductCreate}
    {now : Int} (h : create_product st req now = .ok st') :
    st'.products = st.products ++
      [mkProduct req ((st.products.length : Int) + 1) now] ∧
    (mkProduct req ((st.products.length : Int) + 1) now).stock_quantity = 0 ∧
    (mkProduct req ((st.products.length : Int) + 1) now).is_active = true := by
  unfold create_product at h
  split at h
  · exact Except.noConfusion h
  split at h
  · exact Except.noConfusion h
  injection h with h
  subst h
  exact ⟨rfl, rfl, rfl⟩

theorem C9_new_product_defaults_witness :
    stC9.products = initState.products ++
      [mkProduct reqProductW ((initState.products.length : Int) + 1) 0] ∧
    (mkProduct reqProductW
      ((initState.products.length : Int) + 1) 0).stock_quantity = 0 ∧
    (mkProduct reqProductW
      ((initState.products.length : Int) + 1) 0).is_active = true :=
  C9_new_product_defaults (show create_product initState reqProductW 0 =
    .ok stC9 from rfl)

/-- C10: applying any ProductUpdate payload to a Product leaves its code,
stock_quantity and created_at unchanged — the update DTO exposes none of
those fields. -/
theorem C10_product_update_frame (p : Product) (u : ProductUpdate) (now : Int) :
    (apply_product_update p u now).code = p.code ∧
    (apply_product_update p u now).stock_quantity = p.stock_quantity ∧
    (apply_product_update p u now).created_at = p.created_at :=
  ⟨rfl, rfl, rfl⟩

end PosLedger

